import Mathlib

/-!
Verification development for the `botuser` Discord bot repository.

The JavaScript sources are shallowly embedded: JS strings are modelled as
`String` / `List Char` (sequences of Unicode scalar values), `undefined`
as `Option.none`, thrown exceptions as `Option`/`Except` failures, and the
awaited external calls (completion service, message fetches, privileged
Discord actions) as explicit inputs or success flags.  Definitions keep
the source names where possible:

* `escapeControlCharsInReplyValue`, `shouldRespondAndReply` — src/lib/groq.js
* `formatMessage`, `isReplyToBot`, `buildConversationMessages`,
  `messageCreateHandler` — src/index.js
* `buildCustomId`, `decodeCustomId`, `getConfirmButtonLabel`,
  `messageCreateP1`, `interactionCreateP1` — src/unnamed/part_001
* `addToRoleHandler`, `removeFromRoleHandler`, `moveAllUsersLoop`,
  `disconnectAllUsersLoop` — the admin command registry in src/lib/groq.js
* `jsonParse`, `encodeURIComponent`, `decodeURIComponent`, `jsTrim` model
  the ECMAScript built-ins the sources call.
-/

/-! ### JavaScript string primitives -/

/-- ECMAScript `String.prototype.trim` whitespace set (the code points
relevant to this code base; JS also trims a handful of exotic spaces). -/
def isJsSpace (c : Char) : Bool :=
  c = ' ' || c = '\t' || c = '\n' || c = '\r' || c = '\x0b' || c = '\x0c' ||
  c = '\xa0' || c = ' ' || c = ' ' || c = '﻿'

/-- Drop matching characters from the end of a list. -/
def dropRightWhile (p : Char → Bool) (s : List Char) : List Char :=
  (s.reverse.dropWhile p).reverse

/-- Model of JS `String.prototype.trim`. -/
def jsTrim (s : String) : String :=
  String.mk (dropRightWhile isJsSpace (s.data.dropWhile isJsSpace))

/-- Model of one JS `String.prototype.replace(/c/g, rep)` pass: every
occurrence of the single character `t` is replaced by `rep`. -/
def jsReplaceAllChar (t : Char) (rep : List Char) (s : List Char) : List Char :=
  s.flatMap (fun c => if c = t then rep else [c])

/-! ### JSON model (ECMAScript `JSON.parse`)

`JSON.parse` is a platform built-in; it is modelled here by a strict JSON
parser: parsing fails (the JS function throws) unless the whole input is a
single JSON value surrounded only by JSON whitespace.  Numbers keep their
literal text (no claim depends on numeric values); objects keep their
key/value pairs in source order and field access is last-occurrence-wins,
as for JS object literals. -/

inductive Json where
  | null : Json
  | bool (b : Bool) : Json
  | num (lit : List Char) : Json
  | str (s : List Char) : Json
  | arr (elems : List Json) : Json
  | obj (kvs : List (List Char × Json)) : Json
deriving Repr

/-- JSON whitespace (space, tab, line feed, carriage return). -/
def isJsonWs (c : Char) : Bool :=
  c = ' ' || c = '\t' || c = '\n' || c = '\r'

def skipWs : List Char → List Char
  | [] => []
  | c :: r => if isJsonWs c then skipWs r else c :: r

def hexVal (c : Char) : Option Nat :=
  let n := c.toNat
  if 48 ≤ n ∧ n ≤ 57 then some (n - 48)
  else if 65 ≤ n ∧ n ≤ 70 then some (n - 55)
  else if 97 ≤ n ∧ n ≤ 102 then some (n - 87)
  else none

/-- Parse the body of a JSON string literal (the opening quote already
consumed); returns the decoded characters and the input after the closing
quote.  Literal control characters below U+0020 are rejected, exactly the
strictness that makes raw newlines inside model output break `JSON.parse`. -/
def parseStringBody : List Char → Option (List Char × List Char)
  | [] => none
  | '"' :: r => some ([], r)
  | '\\' :: 'u' :: h1 :: h2 :: h3 :: h4 :: r2 =>
    match hexVal h1, hexVal h2, hexVal h3, hexVal h4 with
    | some a, some b, some c, some d =>
      (parseStringBody r2).map
        (fun p => (Char.ofNat (((a * 16 + b) * 16 + c) * 16 + d) :: p.1, p.2))
    | _, _, _, _ => none
  | '\\' :: '"' :: r => (parseStringBody r).map (fun p => ('"' :: p.1, p.2))
  | '\\' :: '\\' :: r => (parseStringBody r).map (fun p => ('\\' :: p.1, p.2))
  | '\\' :: '/' :: r => (parseStringBody r).map (fun p => ('/' :: p.1, p.2))
  | '\\' :: 'b' :: r => (parseStringBody r).map (fun p => ('\x08' :: p.1, p.2))
  | '\\' :: 'f' :: r => (parseStringBody r).map (fun p => ('\x0c' :: p.1, p.2))
  | '\\' :: 'n' :: r => (parseStringBody r).map (fun p => ('\n' :: p.1, p.2))
  | '\\' :: 'r' :: r => (parseStringBody r).map (fun p => ('\r' :: p.1, p.2))
  | '\\' :: 't' :: r => (parseStringBody r).map (fun p => ('\t' :: p.1, p.2))
  | '\\' :: _ => none
  | c :: r =>
    if c.toNat < 0x20 then none
    else (parseStringBody r).map (fun p => (c :: p.1, p.2))

def takeDigits : List Char → List Char × List Char
  | [] => ([], [])
  | c :: r =>
    if c.isDigit then
      let p := takeDigits r
      (c :: p.1, p.2)
    else ([], c :: r)

/-- Parse a JSON number literal, returning its text and the rest. -/
def parseNumber (s : List Char) : Option (List Char × List Char) :=
  let (sign, s1) := match s with
    | '-' :: r => (['-'], r)
    | _ => (([] : List Char), s)
  match s1 with
  | '0' :: r => parseNumberFrac (sign ++ ['0']) r
  | c :: r =>
    if c.isDigit then
      let p := takeDigits r
      parseNumberFrac (sign ++ (c :: p.1)) p.2
    else none
  | [] => none
where
  parseNumberFrac (acc : List Char) (s : List Char) : Option (List Char × List Char) :=
    match s with
    | '.' :: r =>
      let p := takeDigits r
      if p.1 = [] then none else parseNumberExp (acc ++ '.' :: p.1) p.2
    | _ => parseNumberExp acc s
  parseNumberExp (acc : List Char) (s : List Char) : Option (List Char × List Char) :=
    match s with
    | c :: r =>
      if c = 'e' ∨ c = 'E' then
        let (sgn, r2) := match r with
          | '+' :: r2 => (['+'], r2)
          | '-' :: r2 => (['-'], r2)
          | _ => (([] : List Char), r)
        let p := takeDigits r2
        if p.1 = [] then none else some (acc ++ c :: (sgn ++ p.1), p.2)
      else some (acc, c :: r)
    | [] => some (acc, [])

/-- Strip an expected literal keyword tail. -/
def stripLit : List Char → List Char → Option (List Char)
  | [], s => some s
  | p :: ps, c :: s => if c = p then stripLit ps s else none
  | _ :: _, [] => none

mutual

/-- Fuelled JSON value parser (fuel strictly decreases on every nested
call; `jsonParse` supplies more than enough fuel for its input). -/
def parseValue : Nat → List Char → Option (Json × List Char)
  | 0, _ => none
  | fuel + 1, s =>
    match skipWs s with
    | [] => none
    | c :: r =>
      if c = 'n' then (stripLit ['u', 'l', 'l'] r).map (fun r2 => (Json.null, r2))
      else if c = 't' then (stripLit ['r', 'u', 'e'] r).map (fun r2 => (Json.bool true, r2))
      else if c = 'f' then (stripLit ['a', 'l', 's', 'e'] r).map (fun r2 => (Json.bool false, r2))
      else if c = '"' then (parseStringBody r).map (fun p => (Json.str p.1, p.2))
      else if c = '\x7b' then parseObject fuel r
      else if c = '[' then parseArray fuel r
      else if c = '-' ∨ c.isDigit then (parseNumber (c :: r)).map (fun p => (Json.num p.1, p.2))
      else none

/-- Parse an object body (the `\x7b` already consumed). -/
def parseObject : Nat → List Char → Option (Json × List Char)
  | 0, _ => none
  | fuel + 1, s =>
    match skipWs s with
    | '\x7d' :: r => some (Json.obj [], r)
    | s2 => (parseMembers fuel s2).map (fun p => (Json.obj p.1, p.2))

/-- Parse one or more `"key": value` members followed by `,` or `\x7d`. -/
def parseMembers : Nat → List Char → Option (List (List Char × Json) × List Char)
  | 0, _ => none
  | fuel + 1, s =>
    match skipWs s with
    | '"' :: r =>
      match parseStringBody r with
      | none => none
      | some (key, r2) =>
        match skipWs r2 with
        | ':' :: r3 =>
          match parseValue fuel r3 with
          | none => none
          | some (v, r4) =>
            match skipWs r4 with
            | ',' :: r5 => (parseMembers fuel r5).map (fun p => ((key, v) :: p.1, p.2))
            | '\x7d' :: r5 => some ([(key, v)], r5)
            | _ => none
        | _ => none
    | _ => none

/-- Parse an array body (the `[` already consumed). -/
def parseArray : Nat → List Char → Option (Json × List Char)
  | 0, _ => none
  | fuel + 1, s =>
    match skipWs s with
    | ']' :: r => some (Json.arr [], r)
    | s2 => (parseElems fuel s2).map (fun p => (Json.arr p.1, p.2))

/-- Parse one or more array elements followed by `,` or `]`. -/
def parseElems : Nat → List Char → Option (List Json × List Char)
  | 0, _ => none
  | fuel + 1, s =>
    match parseValue fuel s with
    | none => none
    | some (v, r) =>
      match skipWs r with
      | ',' :: r2 => (parseElems fuel r2).map (fun p => (v :: p.1, p.2))
      | ']' :: r2 => some ([v], r2)
      | _ => none

end

/-- Model of `JSON.parse` on a character sequence: `none` models a thrown
`SyntaxError`. -/
def jsonParse (s : List Char) : Option Json :=
  match parseValue (4 * s.length + 16) s with
  | none => none
  | some (j, rest) => if skipWs rest = [] then some j else none

/-- JS property read `data.k` for parsed JSON data: only objects have own
string-keyed properties, and for duplicate keys the last wins. -/
def jsGetField (j : Json) (k : List Char) : Option Json :=
  match j with
  | Json.obj kvs => kvs.foldl (fun acc kv => if kv.1 = k then some kv.2 else acc) none
  | _ => none

/-! ### src/lib/groq.js — intent decision engine -/

/-- The decision object produced by `shouldRespondAndReply`. -/
structure Decision where
  reply : String
deriving Repr, DecidableEq

/-- src/lib/groq.js lines 35–41: three global single-character replaces,
turning every literal line feed / carriage return / tab byte into its
two-character JSON escape.  (The `typeof raw` guard is vacuous here: the
call site only passes strings.) -/
def escapeControlCharsInReplyValue (raw : String) : String :=
  String.mk
    (jsReplaceAllChar '\t' ['\\', 't']
      (jsReplaceAllChar '\r' ['\\', 'r']
        (jsReplaceAllChar '\n' ['\\', 'n'] raw.data)))

/-- The pure tail of `shouldRespondAndReply` (src/lib/groq.js lines 56–68):
everything after the completion call returned.  Input is the raw
`completion.choices?.[0]?.message?.content` (absent fields modelled as
`none`); the source trims it, falls back to `{reply: ""}` on emptiness,
escapes control characters, parses, and keeps `data.reply` only when it
is a string. -/
def decisionFromContent (rawContent : Option String) : Decision :=
  match rawContent with
  | none => { reply := "" }
  | some raw =>
    let content := jsTrim raw
    if content = "" then { reply := "" }
    else
      let escaped := escapeControlCharsInReplyValue content
      match jsonParse escaped.data with
      | none => { reply := "" }
      | some data =>
        { reply := match jsGetField data ("reply".data) with
            | some (Json.str s) => String.mk s
            | _ => "" }

/-- src/lib/groq.js lines 43–69.  The awaited
`client.chat.completions.create` call is the argument: `Except.ok c`
models a completion that resolved with raw content `c`, `Except.error e`
a rejected call (network/service failure).  The source has no try/catch
around the await, so a rejection propagates to the caller unchanged. -/
def shouldRespondAndReply (completionResult : Except Unit (Option String)) :
    Except Unit Decision :=
  match completionResult with
  | Except.error e => Except.error e
  | Except.ok rawContent => Except.ok (decisionFromContent rawContent)

/-! ### src/index.js — context window builder and message handler -/

/-- A Discord user as seen through `message.mentions.users` /
`message.author`. -/
structure MUser where
  id : Nat
  username : String
deriving Repr, DecidableEq

/-- A Discord role as seen through `message.mentions.roles`. -/
structure MRole where
  id : Nat
  name : String
  managed : Bool
deriving Repr, DecidableEq

/-- A Discord message, restricted to the fields the sources read.
`username`/`content` are optional to mirror the `?.` accesses;
`reference` is the replied-to message id; `authorIsBot` is
`message.author.bot`; the mention lists are in collection order. -/
structure Msg where
  authorId : Nat
  username : Option String
  authorIsBot : Bool
  content : Option String
  createdTimestamp : Nat
  reference : Option Nat
  mentionUsers : List MUser
  mentionRoles : List MRole
deriving Repr

/-- src/index.js lines 74–78. -/
def formatMessage (msg : Msg) : String :=
  let name := msg.username.getD "Unknown"
  let trimmed := (msg.content.map jsTrim).getD ""
  let content := if trimmed = "" then "(no text)" else trimmed
  name ++ ": " ++ content

/-- src/index.js lines 87–100: `fetchRef` models
`channel.messages.fetch(id)`, with `none` for a rejected fetch (the
source catches it and returns `false`). -/
def isReplyToBot (message : Msg) (fetchRef : Nat → Option Msg) (botId : Nat) : Bool :=
  match message.reference with
  | none => false
  | some refId =>
    match fetchRef refId with
    | none => false
    | some ref => ref.authorId == botId

def RECENT_MESSAGES_LIMIT : Nat := 15

/-- One conversation turn as passed to the completion service. -/
structure Turn where
  role : String
  content : String
deriving Repr, DecidableEq

/-- src/index.js lines 111–131.  `channelMessages` is the channel's
message store ordered as Discord returns it (most recent first);
`fetch \x7blimit: 15\x7d` takes the first 15 of it.  The JS comparator
`a.createdTimestamp - b.createdTimestamp` sorts ascending by timestamp
(stably), modelled by `List.mergeSort`. -/
def buildConversationMessages (channelMessages : List Msg) (newMessage : Msg)
    (botId : Nat) (fetchRef : Nat → Option Msg) : List Turn × Bool :=
  let messages := channelMessages.take RECENT_MESSAGES_LIMIT
  let sorted := messages.mergeSort (fun a b => a.createdTimestamp ≤ b.createdTimestamp)
  let replyToBot := isReplyToBot newMessage fetchRef botId
  let turns := sorted.map (fun msg =>
    { role := if msg.authorId == botId then "assistant" else "user",
      content := formatMessage msg })
  (turns, replyToBot)

/-- What the src/index.js `MessageCreate` handler did with a message:
which external effects ran and what, if anything, was sent. -/
structure HandlerTrace where
  fetchedHistory : Bool
  calledCompletion : Bool
  sent : Option String
deriving Repr, DecidableEq

/-- src/index.js lines 167–197.  The completion service is external, so
the decision it produced is a parameter; it is only consulted on the
non-bot path. -/
def messageCreateHandler (message : Msg) (decision : Decision) : HandlerTrace :=
  if message.authorIsBot then
    { fetchedHistory := false, calledCompletion := false, sent := none }
  else
    { fetchedHistory := true, calledCompletion := true,
      sent := if jsTrim decision.reply = "" then none else some decision.reply }

/-! ### ECMAScript `encodeURIComponent` / `decodeURIComponent`

`encodeURIComponent` leaves the unreserved set `A–Z a–z 0–9 - _ . ! ~ * ' ( )`
unchanged and percent-encodes the UTF-8 bytes of every other character
with uppercase hex digits.  `decodeURIComponent` reverses this and throws
a `URIError` (modelled as `none`) on malformed escapes or byte sequences
that are not valid UTF-8 — exactly what a truncated percent-escape in a
clipped button token produces. -/

def uriUnreserved (c : Char) : Bool :=
  c.isAlphanum || c = '-' || c = '_' || c = '.' || c = '!' || c = '~' ||
  c = '*' || c = Char.ofNat 39 || c = '(' || c = ')'

/-- UTF-8 encoding of a Unicode scalar value. -/
def utf8Bytes (n : Nat) : List Nat :=
  if n < 0x80 then [n]
  else if n < 0x800 then [0xC0 + n / 0x40, 0x80 + n % 0x40]
  else if n < 0x10000 then
    [0xE0 + n / 0x1000, 0x80 + (n / 0x40) % 0x40, 0x80 + n % 0x40]
  else
    [0xF0 + n / 0x40000, 0x80 + (n / 0x1000) % 0x40, 0x80 + (n / 0x40) % 0x40,
     0x80 + n % 0x40]

/-- Uppercase hex digit. -/
def hexDigitChar (x : Nat) : Char :=
  if x < 10 then Char.ofNat (48 + x) else Char.ofNat (55 + x)

/-- `%XX` escape of one byte. -/
def escByte (b : Nat) : List Char :=
  ['%', hexDigitChar (b / 16), hexDigitChar (b % 16)]

def encodeURIChar (c : Char) : List Char :=
  if uriUnreserved c then [c] else (utf8Bytes c.toNat).flatMap escByte

def encURI (s : List Char) : List Char := s.flatMap encodeURIChar

/-- Model of `encodeURIComponent`. -/
def encodeURIComponent (s : String) : String := String.mk (encURI s.data)

/-- Fuelled percent-decoding loop.  One unit of fuel is spent per decoded
character, and every step consumes at least one input character, so fuel
equal to the input length always suffices. -/
def decURIFuel : Nat → List Char → Option (List Char)
  | _, [] => some []
  | 0, _ :: _ => none
  | fuel + 1, '%' :: h1 :: h2 :: rest =>
    match hexVal h1, hexVal h2 with
    | some a, some b =>
      let B := 16 * a + b
      if B < 0x80 then (decURIFuel fuel rest).map (Char.ofNat B :: ·)
      else if 0xC2 ≤ B ∧ B ≤ 0xDF then
        match rest with
        | '%' :: h3 :: h4 :: rest2 =>
          match hexVal h3, hexVal h4 with
          | some a2, some b2 =>
            let B2 := 16 * a2 + b2
            if 0x80 ≤ B2 ∧ B2 ≤ 0xBF then
              (decURIFuel fuel rest2).map
                (Char.ofNat ((B - 0xC0) * 0x40 + (B2 - 0x80)) :: ·)
            else none
          | _, _ => none
        | _ => none
      else if 0xE0 ≤ B ∧ B ≤ 0xEF then
        match rest with
        | '%' :: h3 :: h4 :: '%' :: h5 :: h6 :: rest2 =>
          match hexVal h3, hexVal h4, hexVal h5, hexVal h6 with
          | some a2, some b2, some a3, some b3 =>
            let B2 := 16 * a2 + b2
            let B3 := 16 * a3 + b3
            if (0x80 ≤ B2 ∧ B2 ≤ 0xBF) ∧ (0x80 ≤ B3 ∧ B3 ≤ 0xBF) then
              let v := (B - 0xE0) * 0x1000 + (B2 - 0x80) * 0x40 + (B3 - 0x80)
              if 0x800 ≤ v ∧ ¬(0xD800 ≤ v ∧ v ≤ 0xDFFF) then
                (decURIFuel fuel rest2).map (Char.ofNat v :: ·)
              else none
            else none
          | _, _, _, _ => none
        | _ => none
      else if 0xF0 ≤ B ∧ B ≤ 0xF4 then
        match rest with
        | '%' :: h3 :: h4 :: '%' :: h5 :: h6 :: '%' :: h7 :: h8 :: rest2 =>
          match hexVal h3, hexVal h4, hexVal h5, hexVal h6, hexVal h7, hexVal h8 with
          | some a2, some b2, some a3, some b3, some a4, some b4 =>
            let B2 := 16 * a2 + b2
            let B3 := 16 * a3 + b3
            let B4 := 16 * a4 + b4
            if (0x80 ≤ B2 ∧ B2 ≤ 0xBF) ∧ (0x80 ≤ B3 ∧ B3 ≤ 0xBF) ∧
               (0x80 ≤ B4 ∧ B4 ≤ 0xBF) then
              let v := (B - 0xF0) * 0x40000 + (B2 - 0x80) * 0x1000 +
                       (B3 - 0x80) * 0x40 + (B4 - 0x80)
              if 0x10000 ≤ v ∧ v ≤ 0x10FFFF then
                (decURIFuel fuel rest2).map (Char.ofNat v :: ·)
              else none
            else none
          | _, _, _, _, _, _ => none
        | _ => none
      else none
    | _, _ => none
  | _ + 1, '%' :: _ => none
  | fuel + 1, c :: rest => (decURIFuel fuel rest).map (c :: ·)

def decURI (s : List Char) : Option (List Char) := decURIFuel s.length s

/-- Model of `decodeURIComponent`; `none` models a thrown `URIError`. -/
def decodeURIComponent (s : String) : Option String :=
  (decURI s.data).map String.mk

/-! ### src/unnamed/part_001 — confirmation protocol -/

/-- JS string truthiness for an optional string (`undefined` and `""` are
falsy). -/
def optStrTruthy : Option String → Bool
  | none => false
  | some s => !(s == "")

/-- `list.slice(0, endIdx)` with JS semantics: a negative end counts from
the end of the list, clamped at 0. -/
def jsSliceZeroTo (endIdx : Int) (s : List Char) : List Char :=
  if endIdx < 0 then s.take (Int.toNat (Int.ofNat s.length + endIdx))
  else s.take endIdx.toNat

/-- Boolean string-prefix test on character lists. -/
def hasPfx : List Char → List Char → Bool
  | [], _ => true
  | _ :: _, [] => false
  | p :: ps, c :: cs => p == c && hasPfx ps cs

/-- Index of the first occurrence of the two-character separator `||`
(JS `String.prototype.indexOf`, `none` for `-1`). -/
def indexOfSep : List Char → Option Nat
  | '|' :: '|' :: _ => some 0
  | _ :: r => (indexOfSep r).map (· + 1)
  | [] => none

def ADMIN_CONFIRM_PREFIX : List Char := "admin_confirm:".data
def ADMIN_PAYLOAD_SEP : List Char := "||".data
def RENAME_PAYLOAD_SEP : Char := '\x01'
def CUSTOM_ID_MAX : Nat := 100
def BUTTON_LABEL_MAX : Nat := 80
def COMMANDS_WITH_ROLE_NAME : List String :=
  ["createRole", "deleteRole", "addToRole", "removeFromRole"]
def COMMAND_RENAME_ROLE : String := "renameRole"

/-- One registry entry of `ADMIN_COMMANDS` (src/lib/adminCommands):
its id and button label; the handlers are modelled separately. -/
structure AdminCommandEntry where
  id : String
  buttonLabel : String
deriving Repr, DecidableEq

/-- The thirteen registry entries, in source order. -/
def ADMIN_COMMANDS : List AdminCommandEntry := [
  ⟨"clearMessages", "Confirm clear messages"⟩,
  ⟨"kickUser", "Confirm kick"⟩,
  ⟨"banUser", "Confirm ban"⟩,
  ⟨"muteUser", "Confirm timeout"⟩,
  ⟨"createRole", "Confirm create role"⟩,
  ⟨"deleteRole", "Confirm delete role"⟩,
  ⟨"renameRole", "Confirm rename role"⟩,
  ⟨"addToRole", "Confirm add to role"⟩,
  ⟨"removeFromRole", "Confirm remove from role"⟩,
  ⟨"disconnectUser", "Confirm disconnect"⟩,
  ⟨"moveUser", "Confirm move user"⟩,
  ⟨"moveAllUsers", "Confirm move everyone"⟩,
  ⟨"disconnectAllUsers", "Confirm disconnect everyone"⟩]

/-- `getAdminCommand(id)` — registry lookup, `null` for unknown ids. -/
def getAdminCommand (id : String) : Option AdminCommandEntry :=
  ADMIN_COMMANDS.find? (fun e => e.id == id)

/-- part_001 lines 133–143: build the button `customId` from the decision.
`maxPayload` reserves the prefix, the command id, the `||` separator and a
2-byte margin out of the 100-byte custom-id budget; only the percent-encoded
parameter payload is clipped to it. -/
def buildCustomId (adminCommand : String) (roleName newRoleName : Option String) :
    List Char :=
  let customId := ADMIN_CONFIRM_PREFIX ++ adminCommand.data
  let maxPayload : Int :=
    (CUSTOM_ID_MAX : Int) - customId.length - ADMIN_PAYLOAD_SEP.length - 2
  if COMMANDS_WITH_ROLE_NAME.contains adminCommand ∧ optStrTruthy roleName then
    let payload := jsSliceZeroTo maxPayload (encodeURIComponent (roleName.getD "")).data
    customId ++ ADMIN_PAYLOAD_SEP ++ payload
  else if adminCommand = COMMAND_RENAME_ROLE ∧ optStrTruthy roleName ∧
      optStrTruthy newRoleName then
    let p1 := (encodeURIComponent (roleName.getD "")).data.take 35
    let p2 := (encodeURIComponent (newRoleName.getD "")).data.take 35
    let payload := jsSliceZeroTo maxPayload (p1 ++ RENAME_PAYLOAD_SEP :: p2)
    customId ++ ADMIN_PAYLOAD_SEP ++ payload
  else customId

/-- The `options` object the `InteractionCreate` handler fills while
decoding the payload. -/
structure DecodedOptions where
  roleName : Option String := none
  newRoleName : Option String := none
deriving Repr, DecidableEq

/-- The first two fields of `payload.split(sep)` (part_001 line 175
destructures `[a, b]`). -/
def splitFirstTwo (sep : Char) (s : List Char) : List Char × List Char :=
  let a := s.takeWhile (fun c => c != sep)
  let b := (s.drop (a.length + 1)).takeWhile (fun c => c != sep)
  (a, b)

/-- part_001 lines 171–184: the try/catch around payload decoding.  A
`decodeURIComponent` throw (`none`) aborts the remaining assignments but
is otherwise swallowed, keeping whatever was already assigned. -/
def decodeOptionsFromPayload (commandId : String) (payloadEnc : List Char) :
    DecodedOptions :=
  if payloadEnc = [] then {}
  else if commandId = COMMAND_RENAME_ROLE ∧ payloadEnc.contains RENAME_PAYLOAD_SEP then
    let p := splitFirstTwo RENAME_PAYLOAD_SEP payloadEnc
    if p.1 ≠ [] then
      match decodeURIComponent (String.mk p.1) with
      | none => {}
      | some ra =>
        if p.2 ≠ [] then
          match decodeURIComponent (String.mk p.2) with
          | none => { roleName := some ra }
          | some rb => { roleName := some ra, newRoleName := some rb }
        else { roleName := some ra }
    else
      if p.2 ≠ [] then
        match decodeURIComponent (String.mk p.2) with
        | none => {}
        | some rb => { newRoleName := some rb }
      else {}
  else if COMMANDS_WITH_ROLE_NAME.contains commandId then
    match decodeURIComponent (String.mk payloadEnc) with
    | none => {}
    | some r => { roleName := some r }
  else {}

/-- part_001 lines 162–184: split the custom id into command id and
payload and decode the options; `none` when the id is not a confirmation
token or names no registered command (the handler returns early). -/
def decodeCustomId (cid : String) : Option (String × DecodedOptions) :=
  if hasPfx ADMIN_CONFIRM_PREFIX cid.data then
    let afterPfx := cid.data.drop ADMIN_CONFIRM_PREFIX.length
    let commandId := String.mk (match indexOfSep afterPfx with
      | some i => afterPfx.take i
      | none => afterPfx)
    let payloadEnc := match indexOfSep afterPfx with
      | some i => afterPfx.drop (i + 2)
      | none => []
    match getAdminCommand commandId with
    | none => none
    | some _ => some (commandId, decodeOptionsFromPayload commandId payloadEnc)
  else none

/-- part_001 lines 23–59: command-specific button label, `none` for the
`null` fallback. -/
def getConfirmButtonLabel (adminCommand : String) (message : Msg)
    (roleName newRoleName : Option String) : Option String :=
  let users := message.mentionUsers
  let userNames := String.intercalate ", " ((users.map (fun u => u.username)).take 2)
  let roleDisplay := match message.mentionRoles.head? with
    | some r => r.name
    | none => match roleName with
      | some s => s
      | none => "role"
  if adminCommand = "clearMessages" then some "Clear messages in this channel"
  else if adminCommand = "kickUser" then
    if userNames ≠ "" then some ("Kick " ++ userNames) else none
  else if adminCommand = "banUser" then
    if userNames ≠ "" then some ("Ban " ++ userNames) else none
  else if adminCommand = "muteUser" then
    if userNames ≠ "" then some ("Timeout " ++ userNames) else none
  else if adminCommand = "createRole" then
    if optStrTruthy roleName then some ("Create role \"" ++ roleName.getD "" ++ "\"") else none
  else if adminCommand = "deleteRole" then
    if roleDisplay ≠ "" then some ("Delete role \"" ++ roleDisplay ++ "\"") else none
  else if adminCommand = "renameRole" then
    if optStrTruthy newRoleName then some ("Rename to \"" ++ newRoleName.getD "" ++ "\"") else none
  else if adminCommand = "addToRole" then
    if userNames ≠ "" ∧ roleDisplay ≠ "" then
      some ("Add " ++ userNames ++ " to " ++ roleDisplay)
    else if roleDisplay ≠ "" then some ("Add to " ++ roleDisplay) else none
  else if adminCommand = "removeFromRole" then
    if userNames ≠ "" ∧ roleDisplay ≠ "" then
      some ("Remove " ++ userNames ++ " from " ++ roleDisplay)
    else if roleDisplay ≠ "" then some ("Remove from " ++ roleDisplay) else none
  else if adminCommand = "disconnectUser" then
    if userNames ≠ "" then some ("Disconnect " ++ userNames) else none
  else if adminCommand = "moveUser" then
    if userNames ≠ "" then some ("Move " ++ userNames) else none
  else if adminCommand = "moveAllUsers" then some "Move everyone"
  else if adminCommand = "disconnectAllUsers" then some "Disconnect everyone"
  else none

/-- What the part_001 `MessageCreate` handler sent, if anything. -/
inductive SendAction where
  | nothing : SendAction
  | plainReply (content : String) : SendAction
  | buttonReply (content : String) (customId : List Char) (label : String) : SendAction
deriving Repr, DecidableEq

/-- The decision object part_001 line 122 destructures from the engine
(the four fields it reads; absent fields are `none`). -/
structure LlmDecision where
  reply : String
  adminCommand : Option String := none
  roleName : Option String := none
  newRoleName : Option String := none
deriving Repr, DecidableEq

/-- Effect trace of the part_001 `MessageCreate` handler. -/
structure P1Trace where
  fetchedHistory : Bool
  calledCompletion : Bool
  action : SendAction
deriving Repr, DecidableEq

/-- part_001 lines 144–145: the button label actually used — the
command-specific label when truthy and within the 80-character cap, else
the registry entry's generic `buttonLabel`, clipped to 80 characters. -/
def confirmButtonFinalLabel (adminCommand : String) (message : Msg)
    (roleName newRoleName : Option String) (cmd : AdminCommandEntry) : String :=
  let label := match getConfirmButtonLabel adminCommand message roleName newRoleName with
    | some s => if s ≠ "" ∧ s.length ≤ BUTTON_LABEL_MAX then s else cmd.buttonLabel
    | none => cmd.buttonLabel
  String.mk (label.data.take BUTTON_LABEL_MAX)

/-- part_001 lines 115–159.  The completion service is external, so the
decision it returned is a parameter; the bot-author guard precedes both
the context fetch and the completion call. -/
def messageCreateP1 (message : Msg) (decision : LlmDecision) : P1Trace :=
  if message.authorIsBot then ⟨false, false, SendAction.nothing⟩
  else if jsTrim decision.reply = "" then ⟨true, true, SendAction.nothing⟩
  else
    let cmdOpt := if optStrTruthy decision.adminCommand then
      getAdminCommand (decision.adminCommand.getD "") else none
    match cmdOpt with
    | some cmd =>
      let adminCommand := decision.adminCommand.getD ""
      let customId := buildCustomId adminCommand decision.roleName decision.newRoleName
      ⟨true, true, SendAction.buttonReply decision.reply customId
        (confirmButtonFinalLabel adminCommand message decision.roleName
          decision.newRoleName cmd)⟩
    | none => ⟨true, true, SendAction.plainReply decision.reply⟩

/-- A guild member as the `InteractionCreate` handler re-resolves it at
activation time (its `Administrator` permission bit). -/
structure GuildMember where
  hasAdministrator : Bool
deriving Repr, DecidableEq

/-- The guild at activation time: owner id and member resolution
(`guild.members.resolve`, `none` when unresolved). -/
structure Guild where
  ownerId : Nat
  members : Nat → Option GuildMember

/-- A button interaction event as the handler reads it. -/
structure Interaction where
  isButton : Bool
  customId : Option String
  guild : Option Guild
  userId : Nat

/-- What the part_001 `InteractionCreate` handler did. -/
inductive InteractionOutcome where
  | ignored : InteractionOutcome
  | noPermission (content : String) (ephemeral : Bool) : InteractionOutcome
  | dispatched (commandId : String) (options : DecodedOptions) : InteractionOutcome
deriving Repr, DecidableEq

/-- part_001 lines 161–211.  `dispatched` models reaching line 204
(`cmd.handler(...)` invoked); the permission check at lines 186–197 uses
the member record resolved from the activating interaction, not anything
from proposal time. -/
def interactionCreateP1 (i : Interaction) : InteractionOutcome :=
  if ¬ i.isButton then InteractionOutcome.ignored
  else
    match i.customId with
    | none => InteractionOutcome.ignored
    | some cid =>
      match decodeCustomId cid with
      | none => InteractionOutcome.ignored
      | some (commandId, options) =>
        let isAdmin := match i.guild with
          | none => false
          | some g =>
            match g.members i.userId with
            | none => false
            | some m => g.ownerId == i.userId || m.hasAdministrator
        if !isAdmin then
          InteractionOutcome.noPermission "You don't have permission to run this." true
        else InteractionOutcome.dispatched commandId options

/-! ### Admin command registry — batch handlers (src/lib/groq.js second half)

For the batch handlers the external privileged calls
(`member.roles.add/remove`, `member.voice.setChannel/disconnect`) are
modelled by per-member success flags: `false` means the awaited call
rejects, which the surrounding `try \x7b ... \x7d catch \x7b\x7d` swallows
before the loop continues.  The handlers are modelled with a resolved
guild and a non-null original message (when `getOriginalMessage` returns
null the JS handler throws on `message.mentions` and the outer catch of
the `InteractionCreate` handler reports the failure — outside these
loops). -/

/-- A guild member as the role-batch handlers see it. -/
structure BMember where
  userId : Nat
  roleIds : List Nat
  addRoleOk : Bool
  removeRoleOk : Bool
deriving Repr, DecidableEq

/-- A voice-channel member as the voice-batch handlers see it. -/
structure VMember where
  userId : Nat
  moveOk : Bool
  disconnectOk : Bool
deriving Repr, DecidableEq

/-- A `followUp` message sent by a handler. -/
structure FollowUpMsg where
  content : String
  ephemeral : Bool
deriving Repr, DecidableEq

/-- Boolean contiguous-substring test (JS `String.prototype.includes`). -/
def listIsInfixOf : List Char → List Char → Bool
  | n, [] => hasPfx n []
  | n, c :: rest => hasPfx n (c :: rest) || listIsInfixOf n rest

/-- `findRoleByName`: case-insensitive exact match over the role cache,
else first role whose lowercased name contains the query. -/
def findRoleByName (roles : List MRole) (name : String) : Option MRole :=
  let normalized := String.mk ((jsTrim name).data.map Char.toLower)
  match roles.find? (fun r => String.mk (r.name.data.map Char.toLower) == normalized) with
  | some r => some r
  | none => roles.find? (fun r => listIsInfixOf normalized.data (r.name.data.map Char.toLower))

/-- Role resolution shared by the role commands: first mentioned role,
else `findRoleByName` when a truthy `roleName` option is present. -/
def resolveTargetRole (guildRoles : List MRole) (originalMessage : Msg)
    (options : DecodedOptions) : Option MRole :=
  match originalMessage.mentionRoles.head? with
  | some r => some r
  | none =>
    if optStrTruthy options.roleName then
      findRoleByName guildRoles (options.roleName.getD "")
    else none

/-- `getMentionedMembers`: mentioned users resolved to guild members,
unresolved ones filtered out (`.filter(Boolean)`). -/
def getMentionedMembers (resolveMember : Nat → Option BMember) (message : Msg) :
    List BMember :=
  (message.mentionUsers.map (fun u => resolveMember u.id)).filterMap id

/-- `ADMIN_COMMANDS.addToRole.handler`: grant the role to each mentioned
member not already holding it, counting only successful grants; a failing
grant is caught and the loop continues. -/
def addToRoleHandler (guildRoles : List MRole) (originalMessage : Msg)
    (resolveMember : Nat → Option BMember) (options : DecodedOptions) : FollowUpMsg :=
  let role := resolveTargetRole guildRoles originalMessage options
  let members := getMentionedMembers resolveMember originalMessage
  match role with
  | none => ⟨"Mention the role (@Role) or give its name (e.g. add @user to Moderator).", true⟩
  | some role =>
    if members = [] then
      ⟨"Mention at least one user (e.g. add @user to Moderator).", true⟩
    else
      let added := members.foldl
        (fun acc m => if ¬ m.roleIds.contains role.id ∧ m.addRoleOk then acc + 1 else acc) 0
      ⟨"Added " ++ toString added ++ " user(s) to **" ++ role.name ++ "**.", false⟩

/-- `ADMIN_COMMANDS.removeFromRole.handler`, the mirror image. -/
def removeFromRoleHandler (guildRoles : List MRole) (originalMessage : Msg)
    (resolveMember : Nat → Option BMember) (options : DecodedOptions) : FollowUpMsg :=
  let role := resolveTargetRole guildRoles originalMessage options
  let members := getMentionedMembers resolveMember originalMessage
  match role with
  | none => ⟨"Mention the role (@Role) or give its name (e.g. remove @user from Moderator).", true⟩
  | some role =>
    if members = [] then
      ⟨"Mention at least one user (e.g. remove @user from Moderator).", true⟩
    else
      let removed := members.foldl
        (fun acc m => if m.roleIds.contains role.id ∧ m.removeRoleOk then acc + 1 else acc) 0
      ⟨"Removed " ++ toString removed ++ " user(s) from **" ++ role.name ++ "**.", false⟩

/-- The per-member loop of `ADMIN_COMMANDS.moveAllUsers.handler` (lines
439–447): every member of the source channel is attempted, failures are
swallowed, successes counted. -/
def moveAllUsersLoop (sourceMembers : List VMember) : Nat :=
  sourceMembers.foldl (fun acc m => if m.moveOk then acc + 1 else acc) 0

/-- The `followUp` of `moveAllUsers` after both channels resolved. -/
def moveAllUsersReport (sourceName targetName : String) (sourceMembers : List VMember) :
    FollowUpMsg :=
  ⟨"Moved " ++ toString (moveAllUsersLoop sourceMembers) ++ " user(s) from **" ++
    sourceName ++ "** to **" ++ targetName ++ "**.", false⟩

/-- The per-member loop of `ADMIN_COMMANDS.disconnectAllUsers.handler`. -/
def disconnectAllUsersLoop (channelMembers : List VMember) : Nat :=
  channelMembers.foldl (fun acc m => if m.disconnectOk then acc + 1 else acc) 0

/-- The `followUp` of `disconnectAllUsers` after the channel resolved. -/
def disconnectAllUsersReport (channelName : String) (channelMembers : List VMember) :
    FollowUpMsg :=
  ⟨"Disconnected " ++ toString (disconnectAllUsersLoop channelMembers) ++
    " user(s) from **" ++ channelName ++ "**.", false⟩

/-! ### Specification-side definitions (for refinement statements) -/

/-- The control-character repair as §4.2 step 5 would have it act on a
single character, written from the spec's words: the three control bytes
become their two-character escapes, everything else is untouched. -/
def escCharSpec (c : Char) : List Char :=
  if c = '\n' then ['\\', 'n']
  else if c = '\r' then ['\\', 'r']
  else if c = '\t' then ['\\', 't']
  else [c]

/-- Modelled from the spec (§4.1): one ConversationTurn — role is
`assistant` iff the speaker's identity equals the bot's, content is
`"\x7bdisplayName\x7d: \x7btrimmedTextOrPlaceholder\x7d"` with placeholder
`"(no text)"` for empty text.  Compared against the builder from the
source. -/
def specConversationTurn (botId : Nat) (m : Msg) : Turn :=
  let displayName := m.username.getD "Unknown"
  let trimmed := (m.content.map jsTrim).getD ""
  { role := if m.authorId = botId then "assistant" else "user",
    content := displayName ++ ": " ++ (if trimmed = "" then "(no text)" else trimmed) }

/-- A send action that renders a gated confirmation control. -/
def rendersControl (a : SendAction) : Prop :=
  ∃ content customId label, a = SendAction.buttonReply content customId label

/-! ### Concrete sample inputs used by witnesses and counterexamples -/

/-- A 16-message sample channel (most recent first, as the store returns
it). -/
def sampleChannel16 : List Msg :=
  (List.range 16).map (fun k =>
    { authorId := k + 1, username := some "user", authorIsBot := false,
      content := some "hello", createdTimestamp := 100 - k, reference := none,
      mentionUsers := [], mentionRoles := [] })

/-- The concrete message of the C6 counterexample. -/
def c6Msg : Msg :=
  { authorId := 3, username := some "u", authorIsBot := false,
    content := some "kick him", createdTimestamp := 1, reference := none,
    mentionUsers := [], mentionRoles := [] }

/-- The concrete decision of the C6 counterexample: registered
adminCommand, empty reply. -/
def c6Dec : LlmDecision :=
  { reply := "", adminCommand := some "kickUser", roleName := none,
    newRoleName := none }

/-- The guild of the C2 witness: owner 100, user 5 a resolvable member
without the Administrator permission. -/
def c2Guild : Guild :=
  { ownerId := 100, members := fun uid => if uid = 5 then some ⟨false⟩ else none }

/-- The C2 witness interaction: user 5 activates a kick confirmation. -/
def c2Interaction : Interaction :=
  { isButton := true, customId := some "admin_confirm:kickUser",
    guild := some c2Guild, userId := 5 }

/-- The C9 witness scenario: role 9 ("Moderator") mentioned, three users
mentioned; user 1 already holds the role, the grant for user 2 fails with
a permission error, the grant for user 3 succeeds. -/
def c9Msg : Msg :=
  { authorId := 50, username := some "admin", authorIsBot := false,
    content := some "add @a @b @c to Moderator", createdTimestamp := 1,
    reference := none,
    mentionUsers := [⟨1, "a"⟩, ⟨2, "b"⟩, ⟨3, "c"⟩],
    mentionRoles := [⟨9, "Moderator", false⟩] }

/-- Member resolution for the C9 witness. -/
def c9Resolve : Nat → Option BMember := fun uid =>
  if uid = 1 then some ⟨1, [9], true, true⟩
  else if uid = 2 then some ⟨2, [], false, true⟩
  else some ⟨3, [], true, true⟩

/-! ### Round-trip lemmas for percent-encoding -/

theorem hexVal_hexDigitChar : ∀ x : Nat, x < 16 → hexVal (hexDigitChar x) = some x := by
  decide

theorem char_valid_nat (c : Char) : c.toNat < 0xD800 ∨ (0xDFFF < c.toNat ∧ c.toNat < 0x110000) := by
  rcases c.valid with h | ⟨h1, h2⟩
  · exact Or.inl (UInt32.toNat_lt_of_lt (by decide) h)
  · exact Or.inr ⟨UInt32.lt_toNat_of_lt (by decide) h1, UInt32.toNat_lt_of_lt (by decide) h2⟩

theorem decURIFuel_cons_ne (fuel : Nat) (c : Char) (rest : List Char) (h : c ≠ '%') :
    decURIFuel (fuel + 1) (c :: rest) = (decURIFuel fuel rest).map (c :: ·) := by
  conv_lhs => unfold decURIFuel
  split
  · simp_all
  · omega
  · simp_all
  · simp_all
  · rename_i fuel2 c2 rest2 _ _ heq1 heq2
    cases heq2
    have : fuel = fuel2 := by omega
    subst this
    rfl

theorem decURIFuel_esc1 (fuel : Nat) (c : Char) (rest : List Char) (hu : uriUnreserved c = false)
    (h1 : c.toNat < 0x80) :
    decURIFuel (fuel + 1) (encodeURIChar c ++ rest) = (decURIFuel fuel rest).map (c :: ·) := by
  have hofn : Char.ofNat c.toNat = c := Char.ofNat_toNat c
  have henc : encodeURIChar c =
      '%' :: hexDigitChar (c.toNat / 16) :: hexDigitChar (c.toNat % 16) :: [] := by
    simp [encodeURIChar, hu, utf8Bytes, h1, escByte]
  rw [henc]
  simp only [List.cons_append, List.nil_append]
  conv_lhs => unfold decURIFuel
  split
  · simp_all
  · omega
  · rename_i fuel2 d1 d2 rest2 heq1 heq2
    cases heq2
    have hf : fuel = fuel2 := by omega
    subst hf
    rw [hexVal_hexDigitChar _ (by omega), hexVal_hexDigitChar _ (by omega)]
    have hB : 16 * (c.toNat / 16) + c.toNat % 16 = c.toNat := by omega
    simp only [hB]
    rw [if_pos h1, hofn]
  · exfalso
    rename_i hexcl heqf heqt
    injection heqt with hhead htail
    exact hexcl _ _ _ htail.symm
  · exfalso
    rename_i hne heqf heqc
    injection heqc with hhead htail
    exact hne hhead.symm

theorem decURIFuel_esc2 (fuel : Nat) (c : Char) (rest : List Char) (hu : uriUnreserved c = false)
    (h1 : 0x80 ≤ c.toNat) (h2 : c.toNat < 0x800) :
    decURIFuel (fuel + 1) (encodeURIChar c ++ rest) = (decURIFuel fuel rest).map (c :: ·) := by
  have hofn : Char.ofNat c.toNat = c := Char.ofNat_toNat c
  have henc : encodeURIChar c =
      '%' :: hexDigitChar ((0xC0 + c.toNat / 0x40) / 16) ::
        hexDigitChar ((0xC0 + c.toNat / 0x40) % 16) ::
      '%' :: hexDigitChar ((0x80 + c.toNat % 0x40) / 16) ::
        hexDigitChar ((0x80 + c.toNat % 0x40) % 16) :: [] := by
    simp [encodeURIChar, hu, utf8Bytes, escByte, show ¬(c.toNat < 0x80) by omega, h2]
  rw [henc]
  simp only [List.cons_append, List.nil_append]
  conv_lhs => unfold decURIFuel
  split
  · simp_all
  · omega
  · rename_i fuel2 d1 d2 rest2 heq1 heq2
    cases heq2
    have hf : fuel = fuel2 := by omega
    subst hf
    rw [hexVal_hexDigitChar _ (by omega), hexVal_hexDigitChar _ (by omega)]
    dsimp only
    have hB : 16 * ((0xC0 + c.toNat / 0x40) / 16) + (0xC0 + c.toNat / 0x40) % 16
        = 0xC0 + c.toNat / 0x40 := by omega
    simp only [hB]
    rw [if_neg (by omega), if_pos (by constructor <;> omega)]
    rw [hexVal_hexDigitChar _ (by omega), hexVal_hexDigitChar _ (by omega)]
    dsimp only
    have hB2 : 16 * ((0x80 + c.toNat % 0x40) / 16) + (0x80 + c.toNat % 0x40) % 16
        = 0x80 + c.toNat % 0x40 := by omega
    simp only [hB2]
    rw [if_pos (by constructor <;> omega)]
    have hvv : (0xC0 + c.toNat / 0x40 - 0xC0) * 0x40 + (0x80 + c.toNat % 0x40 - 0x80)
        = c.toNat := by omega
    simp only [hvv, hofn]
  · exfalso
    rename_i hexcl heqf heqt
    injection heqt with hhead htail
    exact hexcl _ _ _ htail.symm
  · exfalso
    rename_i hne heqf heqc
    injection heqc with hhead htail
    exact hne hhead.symm

theorem decURIFuel_esc3 (fuel : Nat) (c : Char) (rest : List Char) (hu : uriUnreserved c = false)
    (h1 : 0x800 ≤ c.toNat) (h2 : c.toNat < 0x10000) :
    decURIFuel (fuel + 1) (encodeURIChar c ++ rest) = (decURIFuel fuel rest).map (c :: ·) := by
  have hofn : Char.ofNat c.toNat = c := Char.ofNat_toNat c
  have hval := char_valid_nat c
  have henc : encodeURIChar c =
      '%' :: hexDigitChar ((0xE0 + c.toNat / 0x1000) / 16) ::
        hexDigitChar ((0xE0 + c.toNat / 0x1000) % 16) ::
      '%' :: hexDigitChar ((0x80 + (c.toNat / 0x40) % 0x40) / 16) ::
        hexDigitChar ((0x80 + (c.toNat / 0x40) % 0x40) % 16) ::
      '%' :: hexDigitChar ((0x80 + c.toNat % 0x40) / 16) ::
        hexDigitChar ((0x80 + c.toNat % 0x40) % 16) :: [] := by
    simp [encodeURIChar, hu, utf8Bytes, escByte, show ¬(c.toNat < 0x80) by omega,
      show ¬(c.toNat < 0x800) by omega, h2]
  rw [henc]
  simp only [List.cons_append, List.nil_append]
  conv_lhs => unfold decURIFuel
  split
  · simp_all
  · omega
  · rename_i fuel2 d1 d2 rest2 heq1 heq2
    cases heq2
    have hf : fuel = fuel2 := by omega
    subst hf
    rw [hexVal_hexDigitChar _ (by omega), hexVal_hexDigitChar _ (by omega)]
    dsimp only
    have hB : 16 * ((0xE0 + c.toNat / 0x1000) / 16) + (0xE0 + c.toNat / 0x1000) % 16
        = 0xE0 + c.toNat / 0x1000 := by omega
    simp only [hB]
    rw [if_neg (by omega), if_neg (by omega), if_pos (by constructor <;> omega)]
    rw [hexVal_hexDigitChar _ (by omega), hexVal_hexDigitChar _ (by omega),
      hexVal_hexDigitChar _ (by omega), hexVal_hexDigitChar _ (by omega)]
    dsimp only
    have hB2 : 16 * ((0x80 + (c.toNat / 0x40) % 0x40) / 16) + (0x80 + (c.toNat / 0x40) % 0x40) % 16
        = 0x80 + (c.toNat / 0x40) % 0x40 := by omega
    have hB3 : 16 * ((0x80 + c.toNat % 0x40) / 16) + (0x80 + c.toNat % 0x40) % 16
        = 0x80 + c.toNat % 0x40 := by omega
    simp only [hB2, hB3]
    rw [if_pos (by refine ⟨⟨by omega, by omega⟩, by omega, by omega⟩)]
    have hvv : (0xE0 + c.toNat / 0x1000 - 0xE0) * 0x1000 +
        (0x80 + (c.toNat / 0x40) % 0x40 - 0x80) * 0x40 + (0x80 + c.toNat % 0x40 - 0x80)
        = c.toNat := by omega
    simp only [hvv]
    rw [if_pos (by refine ⟨by omega, by omega⟩)]
    simp only [hofn]
  · exfalso
    rename_i hexcl heqf heqt
    injection heqt with hhead htail
    exact hexcl _ _ _ htail.symm
  · exfalso
    rename_i hne heqf heqc
    injection heqc with hhead htail
    exact hne hhead.symm

theorem decURIFuel_esc4 (fuel : Nat) (c : Char) (rest : List Char) (hu : uriUnreserved c = false)
    (h1 : 0x10000 ≤ c.toNat) :
    decURIFuel (fuel + 1) (encodeURIChar c ++ rest) = (decURIFuel fuel rest).map (c :: ·) := by
  have hofn : Char.ofNat c.toNat = c := Char.ofNat_toNat c
  have hval := char_valid_nat c
  have h2 : c.toNat < 0x110000 := by omega
  have henc : encodeURIChar c =
      '%' :: hexDigitChar ((0xF0 + c.toNat / 0x40000) / 16) ::
        hexDigitChar ((0xF0 + c.toNat / 0x40000) % 16) ::
      '%' :: hexDigitChar ((0x80 + (c.toNat / 0x1000) % 0x40) / 16) ::
        hexDigitChar ((0x80 + (c.toNat / 0x1000) % 0x40) % 16) ::
      '%' :: hexDigitChar ((0x80 + (c.toNat / 0x40) % 0x40) / 16) ::
        hexDigitChar ((0x80 + (c.toNat / 0x40) % 0x40) % 16) ::
      '%' :: hexDigitChar ((0x80 + c.toNat % 0x40) / 16) ::
        hexDigitChar ((0x80 + c.toNat % 0x40) % 16) :: [] := by
    simp [encodeURIChar, hu, utf8Bytes, escByte, show ¬(c.toNat < 0x80) by omega,
      show ¬(c.toNat < 0x800) by omega, show ¬(c.toNat < 0x10000) by omega]
  rw [henc]
  simp only [List.cons_append, List.nil_append]
  conv_lhs => unfold decURIFuel
  split
  · simp_all
  · omega
  · rename_i fuel2 d1 d2 rest2 heq1 heq2
    cases heq2
    have hf : fuel = fuel2 := by omega
    subst hf
    rw [hexVal_hexDigitChar _ (by omega), hexVal_hexDigitChar _ (by omega)]
    dsimp only
    have hB : 16 * ((0xF0 + c.toNat / 0x40000) / 16) + (0xF0 + c.toNat / 0x40000) % 16
        = 0xF0 + c.toNat / 0x40000 := by omega
    simp only [hB]
    rw [if_neg (by omega), if_neg (by omega), if_neg (by omega),
      if_pos (by constructor <;> omega)]
    rw [hexVal_hexDigitChar _ (by omega), hexVal_hexDigitChar _ (by omega),
      hexVal_hexDigitChar _ (by omega), hexVal_hexDigitChar _ (by omega),
      hexVal_hexDigitChar _ (by omega), hexVal_hexDigitChar _ (by omega)]
    dsimp only
    have hB2 : 16 * ((0x80 + (c.toNat / 0x1000) % 0x40) / 16) +
        (0x80 + (c.toNat / 0x1000) % 0x40) % 16 = 0x80 + (c.toNat / 0x1000) % 0x40 := by omega
    have hB3 : 16 * ((0x80 + (c.toNat / 0x40) % 0x40) / 16) +
        (0x80 + (c.toNat / 0x40) % 0x40) % 16 = 0x80 + (c.toNat / 0x40) % 0x40 := by omega
    have hB4 : 16 * ((0x80 + c.toNat % 0x40) / 16) + (0x80 + c.toNat % 0x40) % 16
        = 0x80 + c.toNat % 0x40 := by omega
    simp only [hB2, hB3, hB4]
    rw [if_pos (by refine ⟨⟨by omega, by omega⟩, ⟨by omega, by omega⟩, by omega, by omega⟩)]
    have hvv : (0xF0 + c.toNat / 0x40000 - 0xF0) * 0x40000 +
        (0x80 + (c.toNat / 0x1000) % 0x40 - 0x80) * 0x1000 +
        (0x80 + (c.toNat / 0x40) % 0x40 - 0x80) * 0x40 + (0x80 + c.toNat % 0x40 - 0x80)
        = c.toNat := by omega
    simp only [hvv]
    rw [if_pos (by refine ⟨by omega, by omega⟩)]
    simp only [hofn]
  · exfalso
    rename_i hexcl heqf heqt
    injection heqt with hhead htail
    exact hexcl _ _ _ htail.symm
  · exfalso
    rename_i hne heqf heqc
    injection heqc with hhead htail
    exact hne hhead.symm

theorem decURIFuel_encodeURIChar (fuel : Nat) (c : Char) (rest : List Char) :
    decURIFuel (fuel + 1) (encodeURIChar c ++ rest) = (decURIFuel fuel rest).map (c :: ·) := by
  by_cases hu : uriUnreserved c
  · have hne : c ≠ '%' := by
      intro h
      rw [h] at hu
      exact absurd hu (by decide)
    have henc : encodeURIChar c = [c] := by simp [encodeURIChar, hu]
    rw [henc, List.cons_append, List.nil_append]
    exact decURIFuel_cons_ne fuel c rest hne
  · rcases Nat.lt_or_ge c.toNat 0x80 with h | h
    · exact decURIFuel_esc1 fuel c rest (by simpa using hu) h
    rcases Nat.lt_or_ge c.toNat 0x800 with h2 | h2
    · exact decURIFuel_esc2 fuel c rest (by simpa using hu) h h2
    rcases Nat.lt_or_ge c.toNat 0x10000 with h3 | h3
    · exact decURIFuel_esc3 fuel c rest (by simpa using hu) h2 h3
    · exact decURIFuel_esc4 fuel c rest (by simpa using hu) h3

theorem decURIFuel_nil (fuel : Nat) : decURIFuel fuel [] = some [] := by
  cases fuel <;> rfl

theorem decURIFuel_encURI (s : List Char) :
    ∀ fuel, s.length ≤ fuel → decURIFuel fuel (encURI s) = some s := by
  induction s with
  | nil =>
    intro fuel _
    simpa [encURI] using decURIFuel_nil fuel
  | cons c tl ih =>
    intro fuel hle
    match fuel, hle with
    | f + 1, hle =>
      have henc : encURI (c :: tl) = encodeURIChar c ++ encURI tl := by simp [encURI]
      rw [henc, decURIFuel_encodeURIChar, ih f (by simpa using Nat.lt_succ_iff.mp hle)]
      rfl

theorem encodeURIChar_length_pos (c : Char) : 0 < (encodeURIChar c).length := by
  by_cases hu : uriUnreserved c
  · simp [encodeURIChar, hu]
  · rcases Nat.lt_or_ge c.toNat 0x80 with h | h
    · simp [encodeURIChar, hu, utf8Bytes, h, escByte]
    rcases Nat.lt_or_ge c.toNat 0x800 with h2 | h2
    · simp [encodeURIChar, hu, utf8Bytes, escByte, show ¬(c.toNat < 0x80) by omega, h2]
    rcases Nat.lt_or_ge c.toNat 0x10000 with h3 | h3
    · simp [encodeURIChar, hu, utf8Bytes, escByte, show ¬(c.toNat < 0x80) by omega,
        show ¬(c.toNat < 0x800) by omega, h3]
    · simp [encodeURIChar, hu, utf8Bytes, escByte, show ¬(c.toNat < 0x80) by omega,
        show ¬(c.toNat < 0x800) by omega, show ¬(c.toNat < 0x10000) by omega]

theorem length_le_length_encURI (s : List Char) : s.length ≤ (encURI s).length := by
  induction s with
  | nil => simp [encURI]
  | cons c tl ih =>
    have h1 := encodeURIChar_length_pos c
    have : encURI (c :: tl) = encodeURIChar c ++ encURI tl := by simp [encURI]
    rw [this]
    simp only [List.length_cons, List.length_append]
    omega

/-- The round trip at the heart of the confirmation token: percent-decoding
inverts percent-encoding on every string. -/
theorem decURI_encURI (s : List Char) : decURI (encURI s) = some s :=
  decURIFuel_encURI s _ (length_le_length_encURI s)

theorem string_mk_data (s : String) : String.mk s.data = s := by
  cases s
  rfl

theorem decodeURIComponent_encodeURIComponent (s : String) :
    decodeURIComponent (encodeURIComponent s) = some s := by
  unfold decodeURIComponent encodeURIComponent
  show (decURI (String.mk (encURI s.data)).data).map String.mk = some s
  have : (String.mk (encURI s.data)).data = encURI s.data := rfl
  rw [this, decURI_encURI]
  simp [string_mk_data]

/-! ### Shared helper lemmas -/

/-- The three sequential global replaces collapse to one per-character
map. -/
theorem escape_flatMap (l : List Char) :
    jsReplaceAllChar '\t' ['\\', 't']
      (jsReplaceAllChar '\r' ['\\', 'r'] (jsReplaceAllChar '\n' ['\\', 'n'] l)) =
    l.flatMap escCharSpec := by
  induction l with
  | nil => rfl
  | cons c tl ih =>
    simp only [jsReplaceAllChar, List.flatMap_cons, List.flatMap_append] at *
    by_cases h1 : c = '\n'
    · subst h1
      simp [escCharSpec, ih]
    · by_cases h2 : c = '\r'
      · subst h2
        simp [escCharSpec, ih]
      · by_cases h3 : c = '\t'
        · subst h3
          simp [escCharSpec, ih]
        · simp [escCharSpec, h1, h2, h3, ih]

theorem escapeControlCharsInReplyValue_data (s : String) :
    (escapeControlCharsInReplyValue s).data = s.data.flatMap escCharSpec :=
  escape_flatMap s.data

/-! ### C1 — decision engine error handling -/

/-- C1, counterexample.  The claim says a completion-service/network
error also results in the fallback `\x7breply: ""\x7d`, but
`shouldRespondAndReply` has no try/catch around the awaited completion
call: a rejected call propagates to the caller instead of producing the
fallback decision. -/
theorem c1_counterexample :
    shouldRespondAndReply (Except.error ()) = Except.error () ∧
    shouldRespondAndReply (Except.error ()) ≠ Except.ok { reply := "" } := by
  constructor
  · rfl
  · intro h
    simp [shouldRespondAndReply] at h

/-- C1 as amended: for every completion call that actually returns,
`shouldRespondAndReply` returns a Decision and never raises: empty or
missing content, a JSON parse failure, and a non-string `reply` field all
yield the fallback `\x7breply: ""\x7d`.  (A rejected completion call, by
contrast, propagates — see the counterexample.) -/
theorem c1_engine_total_after_completion :
    ∀ rawContent : Option String, ∃ d : Decision,
      shouldRespondAndReply (Except.ok rawContent) = Except.ok d ∧
      (rawContent = none → d = { reply := "" }) ∧
      ∀ raw, rawContent = some raw →
        ((jsTrim raw = "" → d = { reply := "" }) ∧
         (jsonParse (escapeControlCharsInReplyValue (jsTrim raw)).data = none →
           d = { reply := "" }) ∧
         ∀ j, jsonParse (escapeControlCharsInReplyValue (jsTrim raw)).data = some j →
           (∀ s, jsGetField j ("reply".data) ≠ some (Json.str s)) →
           d = { reply := "" }) := by
  intro rc
  refine ⟨decisionFromContent rc, rfl, fun h => by subst h; rfl, ?_⟩
  rintro raw rfl
  refine ⟨?_, ?_, ?_⟩
  · intro ht
    simp [decisionFromContent, ht]
  · intro hp
    by_cases ht : jsTrim raw = ""
    · simp [decisionFromContent, ht]
    · simp [decisionFromContent, ht, hp]
  · intro j hj hno
    by_cases ht : jsTrim raw = ""
    · simp [decisionFromContent, ht]
    · simp only [decisionFromContent, ht, if_neg (by exact ht), hj]
      rcases hlook : jsGetField j ("reply".data) with _ | v
      · simp [decisionFromContent, ht, hj, hlook]
      · cases v with
        | str s => exact absurd hlook (hno s)
        | null => simp [decisionFromContent, ht, hj, hlook]
        | bool b => simp [decisionFromContent, ht, hj, hlook]
        | num n => simp [decisionFromContent, ht, hj, hlook]
        | arr a => simp [decisionFromContent, ht, hj, hlook]
        | obj o => simp [decisionFromContent, ht, hj, hlook]

/-- C1 witness: a completion that returned non-JSON prose yields the
fallback decision. -/
theorem c1_witness :
    shouldRespondAndReply (Except.ok (some "not json")) = Except.ok { reply := "" } := by
  obtain ⟨d, hok, _, hsome⟩ := c1_engine_total_after_completion (some "not json")
  obtain ⟨_, hp, _⟩ := hsome "not json" rfl
  rw [hok, hp rfl]

/-! ### C3 — control-character repair -/

/-- C3, counterexample.  In `"\x7b LF \"reply\": \"hi\"\x7d"` the literal
newline sits between JSON tokens, outside the `"reply"` string value, so
under the claim the repair would leave the text unchanged (and the object
would then parse to reply `"hi"`).  The source function escapes it anyway
— it is a global replace with no quote/escape-state tracking — and the
resulting `\x5cn` outside any string makes `JSON.parse` fail, so the
engine falls back to the empty reply. -/
theorem c3_counterexample :
    escapeControlCharsInReplyValue "\x7b\n\"reply\": \"hi\"\x7d" ≠
      "\x7b\n\"reply\": \"hi\"\x7d" ∧
    decisionFromContent (some "\x7b\n\"reply\": \"hi\"\x7d") = { reply := "" } := by
  constructor
  · decide
  · rfl

/-- C3 as amended: the repair step escapes literal newline, carriage
return and tab bytes *everywhere* in the raw completion text — it is an
unconditional per-character replacement with no quote/escape-state
tracking, so characters outside the `"reply"` string value are rewritten
too; afterwards no literal control byte of the three remains anywhere. -/
theorem c3_escape_is_global :
    ∀ s : String,
      (escapeControlCharsInReplyValue s).data = s.data.flatMap escCharSpec ∧
      ∀ c ∈ (escapeControlCharsInReplyValue s).data, c ≠ '\n' ∧ c ≠ '\r' ∧ c ≠ '\t' := by
  intro s
  refine ⟨escapeControlCharsInReplyValue_data s, ?_⟩
  intro c hc
  rw [escapeControlCharsInReplyValue_data] at hc
  obtain ⟨a, _, hc2⟩ := List.mem_flatMap.mp hc
  unfold escCharSpec at hc2
  split at hc2
  · simp at hc2
    rcases hc2 with rfl | rfl
    · exact ⟨by decide, by decide, by decide⟩
    · exact ⟨by decide, by decide, by decide⟩
  · split at hc2
    · simp at hc2
      rcases hc2 with rfl | rfl
      · exact ⟨by decide, by decide, by decide⟩
      · exact ⟨by decide, by decide, by decide⟩
    · split at hc2
      · simp at hc2
        rcases hc2 with rfl | rfl
        · exact ⟨by decide, by decide, by decide⟩
        · exact ⟨by decide, by decide, by decide⟩
      · simp at hc2
        subst hc2
        rename_i h1 h2 h3
        exact ⟨h1, h2, h3⟩

/-- C3 witness: the amended statement evaluated on a sample string with a
newline outside any string value. -/
theorem c3_escape_is_global_witness :
    (escapeControlCharsInReplyValue "a\nb").data = ("a\nb".data.flatMap escCharSpec) ∧
    ('\\' ≠ '\n' ∧ '\\' ≠ '\r' ∧ '\\' ≠ '\t') :=
  ⟨(c3_escape_is_global "a\nb").1, (c3_escape_is_global "a\nb").2 '\\' (by decide)⟩

/-! ### C4 — no JSON-span extraction -/

theorem dropRightWhile_cons_of_neg (q : Char → Bool) (p : Char) (l : List Char)
    (h : q p = false) : ∃ t, dropRightWhile q (p :: l) = p :: t := by
  unfold dropRightWhile
  rw [List.reverse_cons, List.dropWhile_append]
  by_cases he : (l.reverse.dropWhile q).isEmpty
  · refine ⟨[], ?_⟩
    rw [if_pos he]
    simp [List.dropWhile_cons, h]
  · refine ⟨(l.reverse.dropWhile q).reverse, ?_⟩
    rw [if_neg he]
    simp

theorem jsTrim_head (p : Char) (rest : List Char) (hp : isJsSpace p = false) :
    ∃ t, (jsTrim (String.mk (p :: rest))).data = p :: t := by
  unfold jsTrim
  show ∃ t, dropRightWhile isJsSpace ((p :: rest).dropWhile isJsSpace) = p :: t
  rw [List.dropWhile_cons, hp]
  exact dropRightWhile_cons_of_neg _ _ _ hp

theorem parseValue_bad_head (fuel : Nat) (p : Char) (X : List Char)
    (hws : isJsonWs p = false) (hn : p ≠ 'n') (ht : p ≠ 't') (hf : p ≠ 'f')
    (hq : p ≠ '"') (hb : p ≠ '\x7b') (ha : p ≠ '[') (hm : p ≠ '-')
    (hd : p.isDigit = false) :
    parseValue fuel (p :: X) = none := by
  cases fuel with
  | zero => rfl
  | succ f =>
    show parseValue (f + 1) (p :: X) = none
    unfold parseValue
    rw [show skipWs (p :: X) = p :: X from by simp [skipWs, hws]]
    simp [hn, ht, hf, hq, hb, ha, hm, hd]

theorem jsonParse_bad_head (p : Char) (X : List Char)
    (hws : isJsonWs p = false) (hn : p ≠ 'n') (ht : p ≠ 't') (hf : p ≠ 'f')
    (hq : p ≠ '"') (hb : p ≠ '\x7b') (ha : p ≠ '[') (hm : p ≠ '-')
    (hd : p.isDigit = false) :
    jsonParse (p :: X) = none := by
  unfold jsonParse
  rw [parseValue_bad_head _ _ _ hws hn ht hf hq hb ha hm hd]

/-- C4, counterexample.  A valid `\x7b"reply": "hi"\x7d` object wrapped in
prose does not yield `"hi"`: there is no `\x7b...\x7d` span extraction in
the source, `JSON.parse` is applied to the whole trimmed text, fails, and
the engine falls back to the empty reply. -/
theorem c4_counterexample :
    decisionFromContent (some "Sure! \x7b\"reply\": \"hi\"\x7d") = { reply := "" } ∧
    decisionFromContent (some "Sure! \x7b\"reply\": \"hi\"\x7d") ≠ { reply := "hi" } := by
  constructor
  · rfl
  · decide

/-- C4 as amended: the engine parses the *entire* trimmed completion text
as JSON — no `\x7b...\x7d` span is located.  Whenever the trimmed text
starts with a character that cannot start a JSON document (any prose
letter other than a keyword/number/string/object/array opener), the
engine returns the fallback `\x7breply: ""\x7d` — it never throws, but it
also never recovers a prose-wrapped object. -/
theorem c4_whole_text_parsed (p : Char) (rest : List Char)
    (hsp : isJsSpace p = false) (hn : p ≠ 'n') (ht : p ≠ 't') (hf : p ≠ 'f')
    (hq : p ≠ '"') (hb : p ≠ '\x7b') (ha : p ≠ '[') (hm : p ≠ '-')
    (hd : p.isDigit = false) :
    decisionFromContent (some (String.mk (p :: rest))) = { reply := "" } := by
  obtain ⟨t, htr⟩ := jsTrim_head p rest hsp
  have hws : isJsonWs p = false := by
    cases hjw : isJsonWs p with
    | false => rfl
    | true =>
      exfalso
      simp only [isJsonWs, Bool.or_eq_true, decide_eq_true_eq] at hjw
      rcases hjw with ((rfl | rfl) | rfl) | rfl <;> exact absurd hsp (by decide)
  have hpn : p ≠ '\n' := fun h => by subst h; exact absurd hsp (by decide)
  have hpr : p ≠ '\r' := fun h => by subst h; exact absurd hsp (by decide)
  have hpt : p ≠ '\t' := fun h => by subst h; exact absurd hsp (by decide)
  have hcstr : jsTrim (String.mk (p :: rest)) = String.mk (p :: t) :=
    (string_mk_data _).symm.trans (by rw [htr])
  have hne : String.mk (p :: t) ≠ "" := by
    intro h
    exact absurd (congrArg String.data h) (by simp)
  have hesc : (escapeControlCharsInReplyValue (String.mk (p :: t))).data =
      p :: t.flatMap escCharSpec := by
    rw [escapeControlCharsInReplyValue_data]
    show (p :: t).flatMap escCharSpec = _
    rw [List.flatMap_cons,
      show escCharSpec p = [p] from by
        unfold escCharSpec; rw [if_neg hpn, if_neg hpr, if_neg hpt]]
    rfl
  unfold decisionFromContent
  dsimp only
  rw [hcstr, if_neg hne, hesc,
    jsonParse_bad_head p _ hws hn ht hf hq hb ha hm hd]

/-- C4 witness: the prose head `'S'` forces the fallback. -/
theorem c4_witness :
    decisionFromContent (some (String.mk ('S' :: ("ure! ok".data)))) = { reply := "" } :=
  c4_whole_text_parsed 'S' ("ure! ok".data) (by decide) (by decide) (by decide)
    (by decide) (by decide) (by decide) (by decide) (by decide) (by decide)

/-! ### C5 — context window builder -/

/-- C5 (confirmed): the builder takes the up-to-15 fetched messages, sorts
them ascending by creation timestamp, maps each to the spec's
ConversationTurn (role `assistant` iff the author is the bot, content
`"name: trimmed-or-placeholder"`), and reports `false` for
`isDirectReplyToBot` when the newest message has no reply-reference. -/
theorem c5_context_builder (channelMessages : List Msg) (newMessage : Msg)
    (botId : Nat) (fetchRef : Nat → Option Msg)
    (href : newMessage.reference = none) :
    (buildConversationMessages channelMessages newMessage botId fetchRef).2 = false ∧
    (buildConversationMessages channelMessages newMessage botId fetchRef).1.length =
      min RECENT_MESSAGES_LIMIT channelMessages.length ∧
    ∃ sorted : List Msg,
      sorted.Perm (channelMessages.take RECENT_MESSAGES_LIMIT) ∧
      List.Pairwise (fun a b : Msg => a.createdTimestamp ≤ b.createdTimestamp) sorted ∧
      (buildConversationMessages channelMessages newMessage botId fetchRef).1 =
        sorted.map (specConversationTurn botId) ∧
      ∀ m ∈ sorted, ((specConversationTurn botId m).role = "assistant" ↔
        m.authorId = botId) := by
  refine ⟨?_, ?_, ?_⟩
  · simp [buildConversationMessages, isReplyToBot, href]
  · simp [buildConversationMessages]
  · refine ⟨(channelMessages.take RECENT_MESSAGES_LIMIT).mergeSort
      (fun a b => a.createdTimestamp ≤ b.createdTimestamp), ?_, ?_, ?_, ?_⟩
    · exact List.mergeSort_perm _ _
    · have hs := @List.sorted_mergeSort Msg
        (fun a b : Msg => decide (a.createdTimestamp ≤ b.createdTimestamp))
        (fun a b c h1 h2 => by simp at *; omega)
        (fun a b => by simpa using Nat.le_total _ _)
        (channelMessages.take RECENT_MESSAGES_LIMIT)
      exact hs.imp (fun h => by simpa using h)
    · show List.map _ _ = _
      refine List.map_congr_left ?_
      intro m _
      unfold specConversationTurn
      by_cases h : m.authorId = botId
      · simp [h, formatMessage]
      · simp [h, formatMessage]
    · intro m _
      unfold specConversationTurn
      by_cases h : m.authorId = botId
      · simp [h]
      · simp only [if_neg h]
        constructor
        · intro hcontr
          exact absurd hcontr (by decide)
        · intro hcontr
          exact absurd hcontr h

/-- C5 witness: on a 16-message channel whose newest message carries no
reply-reference, the context has exactly the 15 most recent turns and
`isDirectReplyToBot` is false. -/
theorem c5_witness :
    (buildConversationMessages sampleChannel16 (sampleChannel16.headD
      { authorId := 1, username := none, authorIsBot := false, content := none,
        createdTimestamp := 0, reference := none, mentionUsers := [],
        mentionRoles := [] }) 999 (fun _ => none)).2 = false ∧
    (buildConversationMessages sampleChannel16 (sampleChannel16.headD
      { authorId := 1, username := none, authorIsBot := false, content := none,
        createdTimestamp := 0, reference := none, mentionUsers := [],
        mentionRoles := [] }) 999 (fun _ => none)).1.length = 15 := by
  have h := c5_context_builder sampleChannel16 (sampleChannel16.headD
    { authorId := 1, username := none, authorIsBot := false, content := none,
      createdTimestamp := 0, reference := none, mentionUsers := [],
      mentionRoles := [] }) 999 (fun _ => none) (by decide)
  refine ⟨h.1, ?_⟩
  rw [h.2.1]
  decide

theorem hasPfx_append (p r : List Char) : hasPfx p (p ++ r) = true := by
  induction p with
  | nil => rfl
  | cons c cs ih => simp [hasPfx, ih]

/-! ### C10 — bot authors are ignored -/

/-- C10 (confirmed): in both MessageCreate handlers (src/index.js and
src/unnamed/part_001), a message whose author is a bot returns before any
history fetch, completion call or send. -/
theorem c10_bot_messages_ignored :
    ∀ (m : Msg) (d : Decision) (d1 : LlmDecision), m.authorIsBot = true →
      messageCreateHandler m d =
        { fetchedHistory := false, calledCompletion := false, sent := none } ∧
      messageCreateP1 m d1 = ⟨false, false, SendAction.nothing⟩ := by
  intro m d d1 h
  constructor
  · simp [messageCreateHandler, h]
  · simp [messageCreateP1, h]

/-- C10 witness: a concrete bot-authored message with a non-empty decision
still produces no effects. -/
theorem c10_witness :
    messageCreateHandler
      { authorId := 7, username := some "otherbot", authorIsBot := true,
        content := some "hi", createdTimestamp := 1, reference := none,
        mentionUsers := [], mentionRoles := [] } { reply := "hello" } =
      { fetchedHistory := false, calledCompletion := false, sent := none } ∧
    messageCreateP1
      { authorId := 7, username := some "otherbot", authorIsBot := true,
        content := some "hi", createdTimestamp := 1, reference := none,
        mentionUsers := [], mentionRoles := [] }
      { reply := "hello", adminCommand := some "kickUser", roleName := none,
        newRoleName := none } = ⟨false, false, SendAction.nothing⟩ :=
  c10_bot_messages_ignored _ _ _ rfl

/-! ### C6 — gated control vs. direct reply -/

/-- C6, counterexample.  A Decision with a registered `adminCommand` but an
empty `reply` renders *no* confirmation control: the handler returns at
the `!reply?.trim()` guard before the admin branch, so nothing is sent at
all — contradicting the claim that every Decision with a registered
adminCommand gets a control rendered with the reply. -/
theorem c6_counterexample :
    (messageCreateP1 c6Msg c6Dec).action = SendAction.nothing ∧
    ¬ rendersControl (messageCreateP1 c6Msg c6Dec).action := by
  have hact : (messageCreateP1 c6Msg c6Dec).action = SendAction.nothing := rfl
  refine ⟨hact, ?_⟩
  intro hctl
  obtain ⟨content, customId, label, heq⟩ := hctl
  rw [hact] at heq
  exact SendAction.noConfusion heq

/-- C6 as amended: for a non-bot message whose decision carries a reply
that is non-empty after trimming — if `adminCommand` is present, truthy
and registered, the handler replies with a gated control whose custom id
is the encoded confirmation token (it always carries the
`admin_confirm:` tag); otherwise the reply is sent directly with no
control.  When the trimmed reply is empty, nothing is sent at all, even
if an admin command is present. -/
theorem c6_control_or_direct :
    ∀ (m : Msg) (d : LlmDecision), m.authorIsBot = false →
      (jsTrim d.reply = "" → (messageCreateP1 m d).action = SendAction.nothing) ∧
      (jsTrim d.reply ≠ "" →
        (∀ a cmd, d.adminCommand = some a → a ≠ "" → getAdminCommand a = some cmd →
          (messageCreateP1 m d).action =
            SendAction.buttonReply d.reply (buildCustomId a d.roleName d.newRoleName)
              (confirmButtonFinalLabel a m d.roleName d.newRoleName cmd) ∧
          hasPfx ADMIN_CONFIRM_PREFIX (buildCustomId a d.roleName d.newRoleName) = true) ∧
        ((optStrTruthy d.adminCommand = false ∨
            getAdminCommand (d.adminCommand.getD "") = none) →
          (messageCreateP1 m d).action = SendAction.plainReply d.reply)) := by
  intro m d hbot
  constructor
  · intro ht
    simp [messageCreateP1, hbot, ht]
  · intro ht
    constructor
    · rintro a cmd ha hane hcmd
      have htr : optStrTruthy d.adminCommand = true := by
        rw [ha]
        simpa [optStrTruthy] using hane
      constructor
      · simp [messageCreateP1, hbot, ht, ha, htr, hcmd, optStrTruthy, hane]
      · unfold buildCustomId
        split
        · simp [List.append_assoc, hasPfx_append]
        · split
          · simp [List.append_assoc, hasPfx_append]
          · simp [hasPfx_append]
    · intro hnone
      rcases hnone with hfalsy | hmiss
      · simp [messageCreateP1, hbot, ht, hfalsy]
      · by_cases hfalsy : optStrTruthy d.adminCommand
        · simp [messageCreateP1, hbot, ht, hfalsy, hmiss]
        · simp [messageCreateP1, hbot, ht, hfalsy]

/-- C6 witness: the spec's kick scenario — decision `\x7b"reply":"ok,
confirm below","adminCommand":"kickUser"\x7d` on a message mentioning one
user renders the control with the encoded token. -/
theorem c6_witness :
    (messageCreateP1
      { authorId := 3, username := some "u", authorIsBot := false,
        content := some "kick @bob", createdTimestamp := 1, reference := none,
        mentionUsers := [⟨8, "bob"⟩], mentionRoles := [] }
      { reply := "ok, confirm below", adminCommand := some "kickUser",
        roleName := none, newRoleName := none }).action =
      SendAction.buttonReply "ok, confirm below" (buildCustomId "kickUser" none none)
        (confirmButtonFinalLabel "kickUser"
          { authorId := 3, username := some "u", authorIsBot := false,
            content := some "kick @bob", createdTimestamp := 1, reference := none,
            mentionUsers := [⟨8, "bob"⟩], mentionRoles := [] } none none
          ⟨"kickUser", "Confirm kick"⟩) := by
  have h := (c6_control_or_direct
    { authorId := 3, username := some "u", authorIsBot := false,
      content := some "kick @bob", createdTimestamp := 1, reference := none,
      mentionUsers := [⟨8, "bob"⟩], mentionRoles := [] }
    { reply := "ok, confirm below", adminCommand := some "kickUser",
      roleName := none, newRoleName := none } rfl).2 (by decide)
  exact (h.1 "kickUser" ⟨"kickUser", "Confirm kick"⟩ rfl (by decide) (by decide)).1

/-! ### C2 — re-authorization at activation time -/

/-- C2 (confirmed): the registry handler is dispatched only when the
activating user, re-resolved from the interaction's guild at activation
time, is the server owner or holds the Administrator permission; every
unauthorized activation of a registered confirmation control gets the
private "no permission" reply and dispatches nothing. -/
theorem c2_reauthorization :
    ∀ i : Interaction,
      (∀ cmdId opts, interactionCreateP1 i = InteractionOutcome.dispatched cmdId opts →
        ∃ g m, i.guild = some g ∧ g.members i.userId = some m ∧
          (g.ownerId = i.userId ∨ m.hasAdministrator = true)) ∧
      (∀ cid cmdId opts, i.isButton = true → i.customId = some cid →
        decodeCustomId cid = some (cmdId, opts) →
        (∀ g m, i.guild = some g → g.members i.userId = some m →
          ¬(g.ownerId = i.userId ∨ m.hasAdministrator = true)) →
        interactionCreateP1 i =
          InteractionOutcome.noPermission "You don't have permission to run this." true ∧
        ∀ c o, interactionCreateP1 i ≠ InteractionOutcome.dispatched c o) := by
  intro i
  constructor
  · intro cmdId opts hdisp
    unfold interactionCreateP1 at hdisp
    by_cases hbtn : i.isButton
    · rw [if_neg (by simpa using hbtn)] at hdisp
      rcases hcid : i.customId with _ | cid
      · rw [hcid] at hdisp
        simp at hdisp
      · rw [hcid] at hdisp
        dsimp only at hdisp
        rcases hdec : decodeCustomId cid with _ | ⟨pc, po⟩
        · rw [hdec] at hdisp
          simp at hdisp
        · rw [hdec] at hdisp
          dsimp only at hdisp
          rcases hg : i.guild with _ | g
          · rw [hg] at hdisp
            simp at hdisp
          · rw [hg] at hdisp
            dsimp only at hdisp
            rcases hm : g.members i.userId with _ | m
            · rw [hm] at hdisp
              simp at hdisp
            · rw [hm] at hdisp
              dsimp only at hdisp
              by_cases hadm : (g.ownerId == i.userId || m.hasAdministrator) = true
              · refine ⟨g, m, rfl, hm, ?_⟩
                rcases Bool.or_eq_true_iff.mp hadm with h | h
                · exact Or.inl (beq_iff_eq.mp h)
                · exact Or.inr h
              · rw [Bool.not_eq_true] at hadm
                rw [hadm] at hdisp
                simp at hdisp
    · rw [if_pos (by simpa using hbtn)] at hdisp
      simp at hdisp
  · intro cid cmdId opts hbtn hcid hdec hnoauth
    have hadmfalse : (match i.guild with
        | none => false
        | some g => match g.members i.userId with
          | none => false
          | some m => g.ownerId == i.userId || m.hasAdministrator) = false := by
      rcases hg : i.guild with _ | g
      · rfl
      · dsimp only
        rcases hm : g.members i.userId with _ | m
        · rfl
        · dsimp only
          have hno := hnoauth g m hg hm
          rcases hown : (g.ownerId == i.userId) with _ | _
          · rcases hadm : m.hasAdministrator with _ | _
            · rfl
            · exact absurd (Or.inr hadm) hno
          · exact absurd (Or.inl (beq_iff_eq.mp hown)) hno
    constructor
    · unfold interactionCreateP1
      rw [if_neg (by simpa using hbtn), hcid]
      dsimp only
      rw [hdec]
      dsimp only
      rw [hadmfalse]
      rfl
    · intro c o hcontr
      unfold interactionCreateP1 at hcontr
      rw [if_neg (by simpa using hbtn), hcid] at hcontr
      dsimp only at hcontr
      rw [hdec] at hcontr
      dsimp only at hcontr
      rw [hadmfalse] at hcontr
      simp at hcontr

/-- C2 witness: the non-admin, non-owner activator gets the private "no
permission" reply and no dispatch happens. -/
theorem c2_witness :
    interactionCreateP1 c2Interaction =
      InteractionOutcome.noPermission "You don't have permission to run this." true ∧
    ∀ c o, interactionCreateP1 c2Interaction ≠ InteractionOutcome.dispatched c o := by
  refine (c2_reauthorization c2Interaction).2 "admin_confirm:kickUser" "kickUser"
    { roleName := none, newRoleName := none } rfl rfl (by rfl) ?_
  intro g m hg hm
  have hgeq : c2Guild = g := by
    have h2 : some c2Guild = some g := hg
    exact Option.some_inj.mp h2
  subst hgeq
  have hmeq : (⟨false⟩ : GuildMember) = m := by
    have h5 : c2Guild.members 5 = some ⟨false⟩ := rfl
    have h6 : c2Guild.members c2Interaction.userId = some m := hm
    rw [show c2Interaction.userId = 5 from rfl, h5] at h6
    exact Option.some_inj.mp h6
  subst hmeq
  rintro (h | h)
  · exact absurd h (by decide)
  · exact absurd h (by decide)

/-! ### C7 — confirmation token round trip -/

theorem indexOfSep_cons_ne (c : Char) (r : List Char) (h : c ≠ '|') :
    indexOfSep (c :: r) = (indexOfSep r).map (· + 1) := by
  conv_lhs => unfold indexOfSep
  split
  · rename_i heq
    injection heq with h1 h2
    exact absurd h1 h

  · rename_i x r2 heq
    injection heq with h1 h2
    subst h1
    subst h2
    rfl
  · rename_i heq
    exact absurd heq (by simp)

theorem indexOfSep_append (l : List Char) (hl : '|' ∉ l) (r : List Char) :
    indexOfSep (l ++ '|' :: '|' :: r) = some l.length := by
  induction l with
  | nil => rfl
  | cons c tl ih =>
    have hc : c ≠ '|' := fun h => hl (h ▸ List.mem_cons_self c tl)
    have htl : '|' ∉ tl := fun h => hl (List.mem_cons_of_mem _ h)
    rw [List.cons_append, indexOfSep_cons_ne c _ hc, ih htl]
    rfl

theorem encURI_ne_nil (s : List Char) (h : s ≠ []) : encURI s ≠ [] := by
  cases s with
  | nil => exact absurd rfl h
  | cons c tl =>
    have hlen := encodeURIChar_length_pos c
    intro hno
    have : encURI (c :: tl) = encodeURIChar c ++ encURI tl := by simp [encURI]
    rw [this] at hno
    have hlen2 := congrArg List.length hno
    rw [List.length_append] at hlen2
    simp only [List.length_nil] at hlen2
    omega

/-- C7 (confirmed): for every registered role-name command and non-empty
role name, the encoded confirmation token always decodes back to the same
command id; and whenever the percent-encoded name fits the custom-id
budget (so no truncation occurs), decoding also restores exactly the
original role name. -/
theorem c7_token_roundtrip :
    ∀ (cmd : String) (name : String),
      cmd ∈ COMMANDS_WITH_ROLE_NAME → name ≠ "" →
      (∃ opts, decodeCustomId (String.mk (buildCustomId cmd (some name) none)) =
          some (cmd, opts)) ∧
      ((encodeURIComponent name).data.length ≤
          CUSTOM_ID_MAX - ADMIN_CONFIRM_PREFIX.length - cmd.data.length -
            ADMIN_PAYLOAD_SEP.length - 2 →
        decodeCustomId (String.mk (buildCustomId cmd (some name) none)) =
          some (cmd, { roleName := some name, newRoleName := none })) := by
  intro cmd name hmem hname
  have hdisj : cmd = "createRole" ∨ cmd = "deleteRole" ∨ cmd = "addToRole" ∨
      cmd = "removeFromRole" := by
    simpa [COMMANDS_WITH_ROLE_NAME] using hmem
  have f1 : '|' ∉ cmd.data := by
    rcases hdisj with rfl | rfl | rfl | rfl <;> decide
  have f2 : cmd ≠ COMMAND_RENAME_ROLE := by
    rcases hdisj with rfl | rfl | rfl | rfl <;> decide
  have f3 : ∃ e, getAdminCommand cmd = some e := by
    rcases hdisj with rfl | rfl | rfl | rfl <;> exact ⟨_, rfl⟩
  have f4 : COMMANDS_WITH_ROLE_NAME.contains cmd = true := by
    rcases hdisj with rfl | rfl | rfl | rfl <;> decide
  have f5 : cmd.data.length ≤ 14 := by
    rcases hdisj with rfl | rfl | rfl | rfl <;> decide
  have htruthy : optStrTruthy (some name) = true := by
    simpa [optStrTruthy] using hname
  have hpfxlen : ADMIN_CONFIRM_PREFIX.length = 14 := rfl
  have hseplen : ADMIN_PAYLOAD_SEP.length = 2 := rfl
  -- the encoded token, with the payload made explicit
  have hcim : (CUSTOM_ID_MAX : Int) = 100 := rfl
  have hmaxnn : ¬((CUSTOM_ID_MAX : Int) - (ADMIN_CONFIRM_PREFIX ++ cmd.data).length -
      ADMIN_PAYLOAD_SEP.length - 2 < 0) := by
    rw [hseplen, hcim]
    simp only [List.length_append, hpfxlen]
    omega
  have hbuild : buildCustomId cmd (some name) none =
      (ADMIN_CONFIRM_PREFIX ++ cmd.data) ++ '|' :: '|' ::
        (encodeURIComponent name).data.take
          ((CUSTOM_ID_MAX : Int) - (ADMIN_CONFIRM_PREFIX ++ cmd.data).length -
            ADMIN_PAYLOAD_SEP.length - 2).toNat := by
    unfold buildCustomId
    rw [if_pos ⟨f4, htruthy⟩]
    unfold jsSliceZeroTo
    rw [if_neg hmaxnn]
    simp only [Option.getD_some,
      show ADMIN_PAYLOAD_SEP = ['|', '|'] from by decide]
    simp [List.append_assoc]
  -- generic decode of the built token
  have hdata : (String.mk (buildCustomId cmd (some name) none)).data =
      buildCustomId cmd (some name) none := rfl
  set payload := (encodeURIComponent name).data.take
    ((CUSTOM_ID_MAX : Int) - (ADMIN_CONFIRM_PREFIX ++ cmd.data).length -
      ADMIN_PAYLOAD_SEP.length - 2).toNat with hpayload
  have hassoc : (ADMIN_CONFIRM_PREFIX ++ cmd.data) ++ '|' :: '|' :: payload =
      ADMIN_CONFIRM_PREFIX ++ (cmd.data ++ '|' :: '|' :: payload) := by
    simp [List.append_assoc]
  have hpfx : hasPfx ADMIN_CONFIRM_PREFIX (buildCustomId cmd (some name) none) = true := by
    rw [hbuild, hassoc]
    exact hasPfx_append _ _
  have hdrop : (buildCustomId cmd (some name) none).drop ADMIN_CONFIRM_PREFIX.length =
      cmd.data ++ '|' :: '|' :: payload := by
    rw [hbuild, hassoc]
    exact List.drop_left _ _
  have hidx : indexOfSep (cmd.data ++ '|' :: '|' :: payload) = some cmd.data.length :=
    indexOfSep_append _ f1 _
  have htake : (cmd.data ++ '|' :: '|' :: payload).take cmd.data.length = cmd.data :=
    List.take_left _ _
  have hdrop2 : (cmd.data ++ '|' :: '|' :: payload).drop (cmd.data.length + 2) = payload := by
    rw [show cmd.data ++ '|' :: '|' :: payload = (cmd.data ++ ['|', '|']) ++ payload by
      simp]
    exact List.drop_left' (by simp)
  obtain ⟨e, he⟩ := f3
  have hdecode : decodeCustomId (String.mk (buildCustomId cmd (some name) none)) =
      some (cmd, decodeOptionsFromPayload cmd payload) := by
    unfold decodeCustomId
    rw [hdata, hpfx]
    dsimp only
    rw [hdrop, hidx]
    dsimp only
    rw [htake, hdrop2, string_mk_data, he]
    rfl
  refine ⟨⟨decodeOptionsFromPayload cmd payload, hdecode⟩, ?_⟩
  -- the untruncated case: the payload is the full encoding and decodes to name
  intro hfit
  have hfit2 : (encodeURIComponent name).data.length ≤
      ((CUSTOM_ID_MAX : Int) - (ADMIN_CONFIRM_PREFIX ++ cmd.data).length -
        ADMIN_PAYLOAD_SEP.length - 2).toNat := by
    simp only [show CUSTOM_ID_MAX = 100 from rfl,
      show ADMIN_CONFIRM_PREFIX.length = 14 from rfl,
      show ADMIN_PAYLOAD_SEP.length = 2 from rfl,
      show ((CUSTOM_ID_MAX : Nat) : Int) = 100 from rfl,
      List.length_append] at hfit ⊢
    omega
  have hpayfull : payload = (encodeURIComponent name).data := by
    rw [hpayload]
    exact List.take_of_length_le hfit2
  have hpne : payload ≠ [] := by
    rw [hpayfull]
    show encURI name.data ≠ []
    refine encURI_ne_nil _ ?_
    intro h
    exact hname ((string_mk_data name) ▸ congrArg String.mk h)
  have hopts : decodeOptionsFromPayload cmd payload =
      { roleName := some name, newRoleName := none } := by
    unfold decodeOptionsFromPayload
    rw [if_neg hpne, if_neg (fun hand => f2 hand.1), if_pos f4, hpayfull, string_mk_data,
      decodeURIComponent_encodeURIComponent]
  rw [hdecode, hopts]

/-- C7 witness: the round trip on `createRole` with role name
`"Moderator"`. -/
theorem c7_witness :
    decodeCustomId (String.mk (buildCustomId "createRole" (some "Moderator") none)) =
      some ("createRole", { roleName := some "Moderator", newRoleName := none }) :=
  (c7_token_roundtrip "createRole" "Moderator" (by decide) (by decide)).2 (by decide)

/-! ### C8 — custom-id byte budget -/

theorem getAdminCommand_isSome_length (a : String) (h : (getAdminCommand a).isSome) :
    a.data.length ≤ 18 := by
  unfold getAdminCommand at h
  rw [List.find?_isSome] at h
  obtain ⟨e, he, heq⟩ := h
  have hid : e.id = a := by simpa using heq
  subst hid
  fin_cases he <;> decide

/-- C8 (confirmed): for every registered command id and any parameter
values, the encoded custom id stays within the 100-byte budget, and only
the parameter payload is ever clipped — the token is either exactly
`prefix ++ id`, or `prefix ++ id ++ "||" ++ payloadSent` where
`payloadSent` is a prefix of the full (unclipped) payload for that
command shape. -/
theorem c8_token_budget :
    ∀ (adminCommand : String) (roleName newRoleName : Option String),
      (getAdminCommand adminCommand).isSome →
      (buildCustomId adminCommand roleName newRoleName).length ≤ CUSTOM_ID_MAX ∧
      ∃ payloadSent : List Char,
        (buildCustomId adminCommand roleName newRoleName =
            ADMIN_CONFIRM_PREFIX ++ adminCommand.data ∧ payloadSent = []) ∨
        ((buildCustomId adminCommand roleName newRoleName =
            (ADMIN_CONFIRM_PREFIX ++ adminCommand.data) ++ ADMIN_PAYLOAD_SEP ++
              payloadSent) ∧
         ∃ full t, full = payloadSent ++ t ∧
           (full = (encodeURIComponent (roleName.getD "")).data ∨
            full = (encodeURIComponent (roleName.getD "")).data.take 35 ++
              RENAME_PAYLOAD_SEP ::
                (encodeURIComponent (newRoleName.getD "")).data.take 35)) := by
  intro a rn nrn hreg
  have hlen18 := getAdminCommand_isSome_length a hreg
  have h14 : ADMIN_CONFIRM_PREFIX.length = 14 := rfl
  have h2 : ADMIN_PAYLOAD_SEP.length = 2 := rfl
  have h100i : ((CUSTOM_ID_MAX : Nat) : Int) = 100 := rfl
  have h100 : CUSTOM_ID_MAX = 100 := rfl
  have hmp : ¬((CUSTOM_ID_MAX : Int) - (ADMIN_CONFIRM_PREFIX ++ a.data).length -
      ADMIN_PAYLOAD_SEP.length - 2 < 0) := by
    simp only [List.length_append, h14, h2, h100i]
    omega
  have hslice : ∀ l : List Char,
      jsSliceZeroTo ((CUSTOM_ID_MAX : Int) - (ADMIN_CONFIRM_PREFIX ++ a.data).length -
        ADMIN_PAYLOAD_SEP.length - 2) l =
      l.take ((CUSTOM_ID_MAX : Int) - (ADMIN_CONFIRM_PREFIX ++ a.data).length -
        ADMIN_PAYLOAD_SEP.length - 2).toNat := by
    intro l
    unfold jsSliceZeroTo
    rw [if_neg hmp]
  unfold buildCustomId
  split
  · -- role-name payload branch
    dsimp only
    rw [hslice]
    constructor
    · simp only [List.length_append, List.length_take, h14, h2, h100i, h100]
      omega
    · refine ⟨_, Or.inr ⟨rfl, (encodeURIComponent (rn.getD "")).data,
        (encodeURIComponent (rn.getD "")).data.drop
          ((CUSTOM_ID_MAX : Int) - (ADMIN_CONFIRM_PREFIX ++ a.data).length -
            ADMIN_PAYLOAD_SEP.length - 2).toNat,
        (List.take_append_drop _ _).symm, Or.inl rfl⟩⟩
  · split
    · -- rename payload branch
      dsimp only
      rw [hslice]
      constructor
      · simp only [List.length_append, List.length_take, h14, h2, h100i, h100]
        omega
      · refine ⟨_, Or.inr ⟨rfl, _, _, (List.take_append_drop _ _).symm, Or.inr rfl⟩⟩
    · -- no payload
      dsimp only
      constructor
      · simp only [List.length_append, h14, h100]
        omega
      · exact ⟨[], Or.inl ⟨rfl, rfl⟩⟩

/-- C8 witness: `createRole` with a 200-character role name still fits the
budget. -/
theorem c8_witness :
    (buildCustomId "createRole" (some (String.mk (List.replicate 200 'x'))) none).length ≤
      CUSTOM_ID_MAX := by
  exact (c8_token_budget "createRole" (some (String.mk (List.replicate 200 'x'))) none
    (by decide)).1

/-! ### C9 — batch commands continue past per-member failures -/

theorem foldl_count {α : Type} (p : α → Prop) [DecidablePred p] :
    ∀ (l : List α) (n : Nat),
      l.foldl (fun acc m => if p m then acc + 1 else acc) n =
        n + l.countP (fun m => decide (p m)) := by
  intro l
  induction l with
  | nil => intro n; simp
  | cons x xs ih =>
    intro n
    simp only [List.foldl_cons, List.countP_cons]
    by_cases h : p x
    · rw [if_pos h, ih]
      simp [h]
      omega
    · rw [if_neg h, ih]
      simp [h]

/-- C9 (confirmed): each batch handler processes every member — a single
member's failed privileged call (or a member already in/out of the role)
never aborts the loop — and the reported outcome counts exactly the
members whose operation succeeded. -/
theorem c9_batch_continues :
    ∀ (guildRoles : List MRole) (msg : Msg) (resolveMember : Nat → Option BMember)
      (options : DecodedOptions) (role : MRole)
      (sourceMembers channelMembers : List VMember) (srcName dstName chName : String),
      resolveTargetRole guildRoles msg options = some role →
      getMentionedMembers resolveMember msg ≠ [] →
      (addToRoleHandler guildRoles msg resolveMember options =
        ⟨"Added " ++ toString ((getMentionedMembers resolveMember msg).countP
            (fun m => decide (¬ m.roleIds.contains role.id ∧ m.addRoleOk))) ++
          " user(s) to **" ++ role.name ++ "**.", false⟩) ∧
      (removeFromRoleHandler guildRoles msg resolveMember options =
        ⟨"Removed " ++ toString ((getMentionedMembers resolveMember msg).countP
            (fun m => decide (m.roleIds.contains role.id ∧ m.removeRoleOk))) ++
          " user(s) from **" ++ role.name ++ "**.", false⟩) ∧
      (moveAllUsersReport srcName dstName sourceMembers =
        ⟨"Moved " ++ toString (sourceMembers.countP (fun m => decide (m.moveOk = true))) ++
          " user(s) from **" ++ srcName ++ "** to **" ++ dstName ++ "**.", false⟩) ∧
      (disconnectAllUsersReport chName channelMembers =
        ⟨"Disconnected " ++
            toString (channelMembers.countP (fun m => decide (m.disconnectOk = true))) ++
          " user(s) from **" ++ chName ++ "**.", false⟩) := by
  intro guildRoles msg resolveMember options role sourceMembers channelMembers
    srcName dstName chName hrole hne
  refine ⟨?_, ?_, ?_, ?_⟩
  · unfold addToRoleHandler
    dsimp only
    rw [hrole]
    dsimp only
    rw [if_neg hne, foldl_count]
    simp
  · unfold removeFromRoleHandler
    dsimp only
    rw [hrole]
    dsimp only
    rw [if_neg hne, foldl_count]
    simp
  · unfold moveAllUsersReport moveAllUsersLoop
    rw [show (fun acc (m : VMember) => if m.moveOk then acc + 1 else acc) =
        (fun acc (m : VMember) => if m.moveOk = true then acc + 1 else acc) from rfl,
      foldl_count]
    simp
  · unfold disconnectAllUsersReport disconnectAllUsersLoop
    rw [show (fun acc (m : VMember) => if m.disconnectOk then acc + 1 else acc) =
        (fun acc (m : VMember) => if m.disconnectOk = true then acc + 1 else acc) from rfl,
      foldl_count]
    simp

/-- C9 witness: the spec's addToRole scenario reports exactly 1 added and
the batch is not aborted by the second user's failure. -/
theorem c9_witness :
    addToRoleHandler [⟨9, "Moderator", false⟩] c9Msg c9Resolve {} =
      ⟨"Added 1 user(s) to **Moderator**.", false⟩ := by
  have h := (c9_batch_continues [⟨9, "Moderator", false⟩] c9Msg c9Resolve {}
    ⟨9, "Moderator", false⟩ [] [] "" "" "" rfl (by decide)).1
  rw [h]
  decide
